import Mathlib

/-!
Shallow embedding of the content-generation pipeline of the
`still-geo-saas` repository (Express backend), covering:

* the Schema Negotiation layer (`mergeSchemaConfig`, `getEnabledSchemaTypes`,
  `isSchemaModuleEnabled`, `processSchemaOutput`) of `src/backend/worker.js`;
* the model-response normalization (`extractMessagePayload`,
  `normalizeJsonContent`, `ensureStructuredContent`, `buildFallbackContent`);
* the Retrieval Engine (`fetchDocumentContext`, `fetchKnowledgeSetContext`)
  with its three tiers and the 8000-character truncation ceiling;
* the Image Resolver (`resolveImages` and the three query helpers);
* the transactional persistence (`withTransaction` of `db.js`) and the
  queue worker's per-job orchestration, including its progress updates;
* the `/generate` route handler guard of `src/backend/routes/content.js`;
* `splitIntoChunks` of `src/backend/routes/documents.js` (chunk ingestion).

JavaScript values flowing through the pipeline are embedded as the `JVal`
inductive; JS truthiness, property access, `String(...)` coercion, object
spread and `Object.keys` are embedded explicitly.  External effects
(PostgreSQL, the filesystem, the embedding and chat HTTP services,
`JSON.parse`, `ORDER BY RANDOM()`) are modelled as explicit environment
parameters; everything else is translated line-by-line from the source.
-/

/-- Embedding of a JavaScript/JSON value.  `jnull` also stands for
`undefined`: the pipeline only ever distinguishes the two where both are
treated alike (`??`, `||`, truthiness). Numbers are embedded as integers;
no fractional arithmetic occurs in the modelled code paths. -/
inductive JVal where
  | jnull : JVal
  | jbool : Bool → JVal
  | jnum : Int → JVal
  | jstr : String → JVal
  | jarr : List JVal → JVal
  | jobj : List (String × JVal) → JVal
deriving Repr

/-- JS truthiness of a value (`Boolean(v)`). -/
def jTruthy : JVal → Bool
  | .jnull => false
  | .jbool b => b
  | .jnum n => n ≠ 0
  | .jstr s => s ≠ ""
  | .jarr _ => true
  | .jobj _ => true

/-- First-match lookup in an object's field list. -/
def lookupField : List (String × JVal) → String → Option JVal
  | [], _ => none
  | (k, v) :: rest, key => if k = key then some v else lookupField rest key

/-- JS property assignment `o[k] = v` on an object: replaces the value in
place when the key exists, appends otherwise. -/
def setField : List (String × JVal) → String → JVal → List (String × JVal)
  | [], k, v => [(k, v)]
  | (k0, v0) :: rest, k, v =>
      if k0 = k then (k0, v) :: rest else (k0, v0) :: setField rest k v

/-- Accumulating decimal parse of a digit list. -/
def digitsToNat : List Char → Nat → Option Nat
  | [], acc => some acc
  | c :: cs, acc =>
      if c.isDigit then digitsToNat cs (acc * 10 + (c.toNat - 48)) else none

/-- Numeric-index view of a property key (for JS array/string index
access). -/
def strToNatQ (s : String) : Option Nat :=
  match s.data with
  | [] => none
  | l => digitsToNat l 0

/-- JS property read `v[key]` (returning `jnull` for `undefined`).
Arrays and strings expose `length` and numeric indices, as in JS. -/
def jget (v : JVal) (key : String) : JVal :=
  match v with
  | .jobj fs => (lookupField fs key).getD .jnull
  | .jarr xs =>
      if key = "length" then .jnum xs.length
      else
        match strToNatQ key with
        | some n => (xs.get? n).getD .jnull
        | none => .jnull
  | .jstr s =>
      if key = "length" then .jnum s.length
      else
        match strToNatQ key with
        | some n =>
            match s.data.get? n with
            | some c => .jstr (String.mk [c])
            | none => .jnull
        | none => .jnull
  | _ => .jnull

/-- `Object.entries(v)` for the values the code spreads or iterates:
objects yield their fields, arrays their indexed elements, everything
else no entries. -/
def jEntries (v : JVal) : List (String × JVal) :=
  match v with
  | .jobj fs => fs
  | .jarr xs => (List.range xs.length).zipWith (fun i x => (toString i, x)) xs
  | _ => []

/-- `Object.keys(v)`: object keys, array index strings, string index
strings, otherwise empty. -/
def jObjectKeys (v : JVal) : List String :=
  match v with
  | .jobj fs => fs.map (·.1)
  | .jarr xs => (List.range xs.length).map toString
  | .jstr s => (List.range s.length).map toString
  | _ => []

mutual
def jToString : JVal → String
  | .jnull => "null"
  | .jbool b => cond b "true" "false"
  | .jnum n => toString n
  | .jstr s => s
  | .jobj _ => "[object Object]"
  | .jarr xs => String.intercalate "," (jToStringList xs)
def jToStringList : List JVal → List String
  | [] => []
  | .jnull :: rest => "" :: jToStringList rest
  | v :: rest => jToString v :: jToStringList rest
end

/-- First truthy value of a list, as a JS `a || b || ... || null` chain. -/
def firstTruthy : List JVal → JVal
  | [] => .jnull
  | v :: rest => if jTruthy v then v else firstTruthy rest

/-- Deduplication against a seen-set accumulator. -/
def dedupSeen : List String → List String → List String
  | _, [] => []
  | seen, x :: xs =>
      if x ∈ seen then dedupSeen seen xs else x :: dedupSeen (x :: seen) xs

/-- `Array.from(new Set(l))`: removes duplicates keeping the first
occurrence of each element. -/
def dedupKeepFirst (l : List String) : List String :=
  dedupSeen [] l

/-- JS object spread `{...a, ...b}`: keys of `a` in order with values
overridden by `b`, then keys of `b` absent from `a` in order. -/
def jsSpread2 (a b : List (String × JVal)) : List (String × JVal) :=
  a.map (fun kv =>
    match lookupField b kv.1 with
    | some w => (kv.1, w)
    | none => kv) ++
  b.filter (fun kv => (lookupField a kv.1).isNone)

mutual
def deepMergeEntries : List (String × JVal) → List (String × JVal) → List (String × JVal)
  | target, [] => target
  | target, (k, v) :: rest => deepMergeEntries (mergeEntry target k v) rest
def mergeEntry (target : List (String × JVal)) (k : String) : JVal → List (String × JVal)
  | .jobj vf =>
      match lookupField target k with
      | some (.jobj tf) => setField target k (.jobj (deepMergeEntries tf vf))
      | _ => setField target k (.jobj vf)
  | v => setField target k v
end

/-- `deepMergeObjects(target, source)` of worker.js: returns `target`
unchanged when `source` is falsy or not of object type. -/
def deepMergeObjects (target : List (String × JVal)) (source : JVal) : List (String × JVal) :=
  if jTruthy source then
    match source with
    | .jobj fs => deepMergeEntries target fs
    | .jarr xs => deepMergeEntries target (jEntries (.jarr xs))
    | _ => target
  else target

/-- Accumulator object built by `mergeSchemaConfig` (it starts from `{}`
and only ever sets these five keys; `none` = key absent). -/
structure MergedSchemaConfig where
  enabled : Option Bool := none
  enabledTypes : Option (List String) := none
  schemaTemplates : Option (List (String × JVal)) := none
  customFields : Option (List (String × JVal)) := none
  advanced : Option (List (String × JVal)) := none
deriving Repr

/-- The body of `mergeSchemaConfig`'s `reduce` for one layer `cfg`. -/
def mergeSchemaConfigStep (acc : MergedSchemaConfig) (cfg : JVal) : MergedSchemaConfig :=
  let acc1 :=
    match jget cfg "enabled" with
    | .jbool b => { acc with enabled := some b }
    | _ => acc
  let acc2 :=
    match jget cfg "enabledTypes" with
    | .jarr (t :: ts) =>
        { acc1 with
          enabledTypes :=
            some (dedupKeepFirst (acc1.enabledTypes.getD [] ++ (t :: ts).map jToString)) }
    | _ => acc1
  let acc3 :=
    if jTruthy (jget cfg "schemaTemplates") then
      { acc2 with
        schemaTemplates :=
          some (jsSpread2 (acc2.schemaTemplates.getD []) (jEntries (jget cfg "schemaTemplates"))) }
    else acc2
  let acc4 :=
    if jTruthy (jget cfg "customFields") then
      { acc3 with
        customFields := some (deepMergeObjects (acc3.customFields.getD []) (jget cfg "customFields")) }
    else acc3
  if jTruthy (jget cfg "advanced") then
    { acc4 with
      advanced :=
        some (jsSpread2 (acc4.advanced.getD []) (jEntries (jget cfg "advanced"))) }
  else acc4

/-- Is `cfg` kept by `mergeSchemaConfig`'s `.filter((cfg) => cfg &&
typeof cfg === 'object')`?  Arrays pass (`typeof [] === 'object'`),
`null` is falsy. -/
def isJsObjectLike : JVal → Bool
  | .jobj _ => true
  | .jarr _ => true
  | _ => false

/-- `mergeSchemaConfig(...configs)` of worker.js. -/
def mergeSchemaConfig (configs : List JVal) : MergedSchemaConfig :=
  (configs.filter isJsObjectLike).foldl mergeSchemaConfigStep {}

/-- `getEnabledSchemaTypes(config)` of worker.js, applied to the merged
accumulator (its only call sites in the worker): a non-empty
`enabledTypes` array wins, else the keys of `schemaTemplates` when that
field is present (an empty template object is still truthy), else `[]`. -/
def getEnabledSchemaTypes (c : MergedSchemaConfig) : List String :=
  match c.enabledTypes with
  | some (t :: ts) => dedupKeepFirst (t :: ts)
  | _ =>
      match c.schemaTemplates with
      | some fs => fs.map (·.1)
      | none => []

/-- `isSchemaModuleEnabled(config)` of worker.js: enabled iff `enabled`
is not explicitly `false` and the resolved type list is non-empty. -/
def isSchemaModuleEnabled (c : MergedSchemaConfig) : Bool :=
  if c.enabled = some false then false
  else !(getEnabledSchemaTypes c).isEmpty

/-- `truncateValue(value, depth, maxDepth)` of worker.js, with
`gas = maxDepth - depth` (initial depth 0, maxDepth 3): arrays keep 10
entries, objects 20, deeper levels become the `[Truncated]` marker. -/
def truncateValue (gas : Nat) (v : JVal) : JVal :=
  match gas with
  | 0 => .jstr "[Truncated]"
  | g + 1 =>
      match v with
      | .jarr xs => .jarr ((xs.take 10).map (truncateValue g))
      | .jobj fs => .jobj ((fs.take 20).map (fun kv => (kv.1, truncateValue g kv.2)))
      | x => x

/-- `snapshotSchemaConfig(schemaConfig)` of worker.js, on the merged
accumulator (always an object, hence never the `null` early return). -/
def snapshotSchemaConfig (c : MergedSchemaConfig) : JVal :=
  .jobj
    [("enabled", .jbool (c.enabled ≠ some false)),
     ("enabledTypes", .jarr ((getEnabledSchemaTypes c).map .jstr)),
     ("customFields",
       match c.customFields with
       | some fs => truncateValue 3 (.jobj fs)
       | none => .jnull),
     ("advanced",
       match c.advanced with
       | some fs => truncateValue 3 (.jobj fs)
       | none => .jnull)]

/-- `sanitizeEntry` inside `sanitizeEntitySchemaData`: non-objects map to
`null`; objects are shallow-copied with `schemaMetadata` truncated when
truthy.  An array entry spreads to an index-keyed object. -/
def sanitizeEntry (e : JVal) : JVal :=
  match e with
  | .jobj fs =>
      if jTruthy (jget (.jobj fs) "schemaMetadata") then
        .jobj (setField fs "schemaMetadata" (truncateValue 3 (jget (.jobj fs) "schemaMetadata")))
      else .jobj fs
  | .jarr xs =>
      .jobj (jEntries (.jarr xs))
  | _ => .jnull

/-- `sanitizeEntitySchemaData(entitySchemaData)` of worker.js.  The
`documents`/`custom` keys are only set when the source fields are
arrays (`undefined` otherwise, modelled by omission). -/
def sanitizeEntitySchemaData (d : JVal) : JVal :=
  .jobj
    ([("keyword", sanitizeEntry (jget d "keyword")),
      ("variation", sanitizeEntry (jget d "variation")),
      ("knowledgeBase", sanitizeEntry (jget d "knowledgeBase"))] ++
     (match jget d "documents" with
      | .jarr xs => [("documents", .jarr (xs.map sanitizeEntry))]
      | _ => []) ++
     (match jget d "custom" with
      | .jarr xs => [("custom", .jarr (xs.map sanitizeEntry))]
      | _ => []))

/-- Result of `processSchemaOutput`: the schema record to persist (or
`null`) and the type list. -/
structure SchemaOut where
  record : Option JVal
  types : List String
deriving Repr

/-- The `reduce` over an array-shaped `rawSchema` in
`processSchemaOutput`, accumulating `types` and `payloads`. -/
def reduceSchemaArray (xs : List JVal) : List String × List (String × JVal) :=
  xs.foldl
    (fun acc item =>
      match item with
      | .jobj _ =>
          let tn := firstTruthy [jget item "type", jget item "schema_type"]
          if jTruthy tn then
            let s := jToString tn
            let payload := firstTruthy [jget item "payload", jget item "data"]
            (acc.1 ++ [s], setField acc.2 s (if jTruthy payload then payload else item))
          else acc
      | _ => acc)
    ([], [])

/-- The `candidatePayloads` expression of `processSchemaOutput`:
`payloadContainer?.payloads || payloadContainer?.payload ||` the
container itself when it is a non-array object, else `null`. -/
def candidatePayloadsOf (container : JVal) : JVal :=
  let viaKeys := firstTruthy [jget container "payloads", jget container "payload"]
  if jTruthy viaKeys then viaKeys
  else
    match container with
    | .jobj fs => .jobj fs
    | _ => .jnull

/-- The `types` selection chain of `processSchemaOutput` (after
`candidatePayloads` is known): declared `types` array, else candidate
keys, filtered against `enabledTypes`, else enabled types having a
truthy candidate payload. -/
def selectSchemaTypes (container candidate : JVal) (enabledTypes : List String) : List String :=
  let types0 :=
    match jget container "types" with
    | .jarr ts => ts.map jToString
    | _ => []
  let types1 :=
    if types0.isEmpty && jTruthy candidate then jObjectKeys candidate else types0
  let types2 :=
    if !enabledTypes.isEmpty && !types1.isEmpty then
      types1.filter (fun t => t ∈ enabledTypes)
    else types1
  if types2.isEmpty && !enabledTypes.isEmpty && jTruthy candidate then
    enabledTypes.filter (fun t => jTruthy (jget candidate t))
  else types2

/-- The `normalizedPayloads` loop of `processSchemaOutput`:
`candidatePayloads[type] ?? candidatePayloads[type.toLowerCase()] ?? null`,
kept when not null/undefined. -/
def normalizePayloads (candidate : JVal) (types : List String) : List (String × JVal) :=
  types.foldl
    (fun acc t =>
      let p :=
        match jget candidate t with
        | .jnull => jget candidate t.toLower
        | v => v
      match p with
      | .jnull => acc
      | v => setField acc t v)
    []

/-- `processSchemaOutput({rawContent, schemaConfig, entitySchemaData})`
of worker.js.  `now` stands for `new Date().toISOString()` read at the
call (observable only through the persisted record's `generatedAt`). -/
def processSchemaOutput (rawContent : JVal) (schemaConfig : MergedSchemaConfig)
    (entitySchemaData : JVal) (now : String) : SchemaOut :=
  if !isSchemaModuleEnabled schemaConfig then
    { record := none, types := [] }
  else
    let rawSchema :=
      firstTruthy
        [jget rawContent "schema_payloads", jget rawContent "schemaPayload",
         jget rawContent "schema", jget rawContent "schemas"]
    let configSnapshot := snapshotSchemaConfig schemaConfig
    let entitySnapshot := sanitizeEntitySchemaData entitySchemaData
    if !jTruthy rawSchema then
      { record :=
          some (.jobj
            [("types", .jarr []), ("payloads", .jnull), ("raw", .jnull),
             ("fallback", .jobj
               [("reason", .jstr "schema_payload_missing"),
                ("message", .jstr "模型未返回 schema_payloads 字段。")]),
             ("configSnapshot", configSnapshot), ("entitySnapshot", entitySnapshot)]),
        types := [] }
    else
      let payloadContainer :=
        match rawSchema with
        | .jarr xs =>
            let r := reduceSchemaArray xs
            JVal.jobj [("types", .jarr (r.1.map .jstr)), ("payloads", .jobj r.2)]
        | v => v
      let candidate := candidatePayloadsOf payloadContainer
      let enabledTypes := getEnabledSchemaTypes schemaConfig
      let types := selectSchemaTypes payloadContainer candidate enabledTypes
      if !jTruthy candidate || types.isEmpty then
        { record :=
            some (.jobj
              [("types", .jarr []),
               ("payloads", if jTruthy candidate then candidate else .jnull),
               ("raw", rawSchema),
               ("fallback", .jobj
                 [("reason", .jstr "schema_payload_invalid"),
                  ("message", .jstr "schema_payloads 缺失或不包含启用的类型。")]),
               ("configSnapshot", configSnapshot), ("entitySnapshot", entitySnapshot)]),
          types := [] }
      else
        let normalized := normalizePayloads candidate types
        if normalized.isEmpty then
          { record :=
              some (.jobj
                [("types", .jarr []), ("payloads", candidate), ("raw", rawSchema),
                 ("fallback", .jobj
                   [("reason", .jstr "schema_payload_empty"),
                    ("message", .jstr "未匹配到有效的 schema payload。")]),
                 ("configSnapshot", configSnapshot), ("entitySnapshot", entitySnapshot)]),
            types := [] }
        else
          { record :=
              some (.jobj
                [("types", .jarr (types.map .jstr)), ("payloads", .jobj normalized),
                 ("raw", rawSchema), ("generatedAt", .jstr now),
                 ("configSnapshot", configSnapshot), ("entitySnapshot", entitySnapshot)]),
            types := types }

/-- JS `\s` (the whitespace characters occurring after control-character
replacement: space, tab, newline, bare carriage return, NBSP, BOM). -/
def isJsWs (c : Char) : Bool :=
  c = ' ' || c = '\t' || c = '\n' || c = '\x0d' || c = ' ' || c = '﻿'

/-- Is `c` in the class `[\x01-\x08\x0B\x0C\x0E-\x1F]` replaced by a
space by the sanitizers? -/
def isCtrlChar (c : Char) : Bool :=
  (1 ≤ c.toNat && c.toNat ≤ 8) || c.toNat = 0x0B || c.toNat = 0x0C ||
  (0x0E ≤ c.toNat && c.toNat ≤ 0x1F)

theorem dropWhileLenLe (p : Char → Bool) (l : List Char) :
    (l.dropWhile p).length ≤ l.length :=
  (List.dropWhile_suffix p).length_le

/-- `.replace(/\r\n/g, '\n')`. -/
def stripCrLf : List Char → List Char
  | [] => []
  | '\x0d' :: '\n' :: cs => '\n' :: stripCrLf cs
  | c :: cs => c :: stripCrLf cs

/-- Index of the last `'\n'` at position ≥ 1 of a list (the backtracked
end of a greedy `\s+` match that still leaves a `\n`). -/
def lastNlIdx (l : List Char) : Option Nat :=
  (List.range l.length).foldl
    (fun acc j => if 1 ≤ j && l.get? j = some '\n' then some j else acc) none

/-- `.replace(/\s+\n/g, '\n')`: in each maximal whitespace run, the
leftmost greedy match ends at the last `'\n'` of the run (if any at
position ≥ 1) and is replaced by a single newline. -/
def collapseWsNl : List Char → List Char
  | [] => []
  | c :: cs =>
      if isJsWs c then
        let run := c :: cs.takeWhile isJsWs
        let rest := cs.dropWhile isJsWs
        (match lastNlIdx run with
         | some j => '\n' :: run.drop (j + 1)
         | none => run) ++ collapseWsNl rest
      else c :: collapseWsNl cs
termination_by l => l.length
decreasing_by
  · simp only [List.length_cons]
    exact Nat.lt_succ_of_le (dropWhileLenLe _ _)
  · simp only [List.length_cons]
    exact Nat.lt_succ_of_le (Nat.le_refl _)

/-- `.replace(/\n{3,}/g, '\n\n')` (used by documentParser's
`sanitizeText` only). -/
def collapseNlRuns : List Char → List Char
  | [] => []
  | c :: cs =>
      if c = '\n' then
        let run := c :: cs.takeWhile (fun x => x = '\n')
        let rest := cs.dropWhile (fun x => x = '\n')
        (if 3 ≤ run.length then ['\n', '\n'] else run) ++ collapseNlRuns rest
      else c :: collapseNlRuns cs
termination_by l => l.length
decreasing_by
  · simp only [List.length_cons]
    exact Nat.lt_succ_of_le (dropWhileLenLe _ _)
  · simp only [List.length_cons]
    exact Nat.lt_succ_of_le (Nat.le_refl _)

/-- JS `String.prototype.trim` over the list representation. -/
def jsTrimChars (l : List Char) : List Char :=
  ((l.dropWhile isJsWs).reverse.dropWhile isJsWs).reverse

/-- JS `s.trim()`. -/
def jsTrimS (s : String) : String :=
  String.mk (jsTrimChars s.data)

/-- `sanitizeKnowledgeText(value)` of worker.js: NUL and control
characters become spaces, CRLF collapses, whitespace runs before a
newline collapse, then both ends are trimmed. -/
def sanitizeKnowledgeText (s : String) : String :=
  String.mk
    (jsTrimChars
      (collapseWsNl
        (stripCrLf
          (s.data.map (fun c =>
            if c = '\x00' then ' ' else if isCtrlChar c then ' ' else c)))))

/-- `sanitizeText(value)` of utils/documentParser.js: as
`sanitizeKnowledgeText` plus collapsing runs of three or more newlines
to two before trimming. -/
def sanitizeText (s : String) : String :=
  String.mk
    (jsTrimChars
      (collapseNlRuns
        (collapseWsNl
          (stripCrLf
            (s.data.map (fun c =>
              if c = '\x00' then ' ' else if isCtrlChar c then ' ' else c))))))

/-- A string field that is non-blank after trimming (the
`typeof x === 'string' && x.trim()` guard of `extractMessagePayload`);
returns the untrimmed string, as the source does. -/
def strFieldNonBlank (v : JVal) : Option String :=
  match v with
  | .jstr s => if jsTrimS s ≠ "" then some s else none
  | _ => none

/-- The Gemini-style `candidates` concatenation of
`extractMessagePayload` (flat-mapped `content.parts`, text parts joined
and trimmed). -/
def candidatesText (data : JVal) : Option String :=
  match jget data "candidates" with
  | .jarr cands =>
      let parts :=
        cands.flatMap (fun cand =>
          match jget (jget cand "content") "parts" with
          | .jarr ps => ps
          | _ => [])
      let concatenated :=
        jsTrimS (String.join (parts.map (fun p =>
          match jget p "text" with
          | .jstr t => t
          | _ => "")))
      if concatenated ≠ "" then some concatenated else none
  | _ => none

/-- `extractMessagePayload(data)` of worker.js: the first of
`content`, `result`, `text`, `choices[0].message.content`, or the
joined candidate parts that is a non-blank string; otherwise `null`. -/
def extractMessagePayload (data : JVal) : Option String :=
  match strFieldNonBlank (jget data "content") with
  | some s => some s
  | none =>
    match strFieldNonBlank (jget data "result") with
    | some s => some s
    | none =>
      match strFieldNonBlank (jget data "text") with
      | some s => some s
      | none =>
        match strFieldNonBlank (jget (jget (jget (jget data "choices") "0") "message") "content") with
        | some s => some s
        | none => candidatesText data

/-- Does `l` start with `pat`? -/
def startsWithList : List Char → List Char → Bool
  | _, [] => true
  | [], _ :: _ => false
  | c :: cs, p :: ps => c = p && startsWithList cs ps

/-- First index at which `pat` occurs as a contiguous sublist of `l`. -/
def findSub : List Char → List Char → Option Nat
  | _, [] => some 0
  | [], _ :: _ => none
  | c :: rest, p :: ps =>
      if startsWithList (c :: rest) (p :: ps) then some 0
      else (findSub rest (p :: ps)).map (· + 1)

/-- First index of character `ch` in `l` (JS `indexOf`). -/
def idxOfChar (l : List Char) (ch : Char) : Option Nat :=
  findSub l [ch]

/-- Last index of character `ch` in `l` (JS `lastIndexOf`). -/
def lastIdxOfChar (l : List Char) (ch : Char) : Option Nat :=
  (idxOfChar l.reverse ch).map (fun i => l.length - 1 - i)

/-- The backtick character (0x60). -/
def btChar : Char := Char.ofNat 96

/-- The fenced-code match `/```(?:json)?\s*([\s\S]*?)\s*```/i` of
`normalizeJsonContent`: locate the first triple backtick, optionally
skip a case-insensitive `json` tag, and capture (trimmed) up to the
next triple backtick; no closing fence means no match. -/
def stripJsonFence (content : List Char) : List Char :=
  match findSub content [btChar, btChar, btChar] with
  | none => content
  | some p1 =>
      let after3 := content.drop (p1 + 3)
      let tagged := startsWithList (after3.map Char.toLower) ['j', 's', 'o', 'n']
      let gs := if tagged then after3.drop 4 else after3
      match findSub gs [btChar, btChar, btChar] with
      | some q => jsTrimChars (gs.take q)
      | none => content

/-- The `[`/`]` fallback window of `normalizeJsonContent`. -/
def bracketWindow (content : List Char) : List Char :=
  match idxOfChar content '[', lastIdxOfChar content ']' with
  | some f, some l =>
      if f < l then jsTrimChars ((content.drop f).take (l + 1 - f))
      else content
  | _, _ => content

/-- The brace/bracket-window heuristic of `normalizeJsonContent`: keep
the content when it already starts with `{`/`[`; else the substring
between the first `{` and last `}` (trimmed) when that window is
non-degenerate; else the same for `[`/`]`; else the content itself. -/
def braceWindow (content : List Char) : List Char :=
  if startsWithList content ['{'] || startsWithList content ['['] then content
  else
    match idxOfChar content '{', lastIdxOfChar content '}' with
    | some f, some l =>
        if f < l then jsTrimChars ((content.drop f).take (l + 1 - f))
        else bracketWindow content
    | _, _ => bracketWindow content

/-- `normalizeJsonContent(raw)` of worker.js.  `none` is the `null`
return (non-string or blank input); note a fence with empty body yields
the empty string, which the caller then treats as falsy. -/
def normalizeJsonContent (raw : Option String) : Option String :=
  match raw with
  | none => none
  | some r =>
      let content := jsTrimChars r.data
      if content = [] then none
      else some (String.mk (braceWindow (stripJsonFence content)))

/-- A row of `generation_rules` (the columns the worker reads). -/
structure RuleRow where
  id : Nat
  userId : Nat
  ruleName : String
  sourceSettings : JVal := .jnull
  styleSettings : JVal := .jnull
  seoSettings : JVal := .jnull
  mediaSettings : JVal := .jnull
  rankingSettings : JVal := .jnull
  schemaConfig : JVal := .jnull

/-- A row of `documents` (the columns the retrieval engine reads). -/
structure DocumentRow where
  id : Nat
  userId : Nat
  fileName : String
  filePath : String
  schemaMetadata : JVal := .jnull
  knowledgeSetId : Option Nat := none
  createdAt : Nat := 0

/-- A row of `knowledge_sets`. -/
structure KnowledgeSetRow where
  id : Nat
  userId : Nat
  name : String
  description : String := ""
  schemaMetadata : JVal := .jnull

/-- A row of `document_chunks`. -/
structure ChunkRow where
  documentId : Nat
  userId : Nat
  chunkIndex : Nat
  content : String
  embedding : Option (List Int) := none

/-- A row of `images`. -/
structure ImageRow where
  id : Nat
  userId : Nat
  imageName : String := ""
  imagePath : String := ""
  tags : List String := []
  collectionId : Option Nat := none
deriving Repr, DecidableEq

/-- A row of `generated_content` as inserted by the worker. -/
structure ContentRow where
  userId : Nat
  ruleId : Option Nat
  title : JVal
  metaDescription : JVal
  body : JVal
  imageIds : List Nat
  schemaPayload : Option JVal
  schemaTypes : Option (List String)

/-- The relational store (rows in table order). -/
structure DB where
  rules : List RuleRow := []
  documents : List DocumentRow := []
  knowledgeSets : List KnowledgeSetRow := []
  chunks : List ChunkRow := []
  images : List ImageRow := []
  generatedContent : List ContentRow := []

/-- JS truthiness of an id that may be `undefined`/`null` (`0` is falsy
too, as in `if (!knowledgeBaseId)` or `collectionId || ...`). -/
def jsIdTruthy : Option Nat → Bool
  | some n => n ≠ 0
  | none => false

/-- Stable insertion of `x` into `l` under `le`. -/
def insertSorted (le : α → α → Bool) (x : α) : List α → List α
  | [] => [x]
  | y :: ys => if le x y then x :: y :: ys else y :: insertSorted le x ys

/-- Insertion sort (models a SQL `ORDER BY`). -/
def sortByLe (le : α → α → Bool) (l : List α) : List α :=
  l.foldr (insertSorted le) []

/-- The environment of external effects consumed by the worker:
database, filesystem (`fs.readFile` composed with the path join, keyed
by the stored `file_path`), embedding service, pgvector distance,
`ORDER BY RANDOM()`, chat service, `JSON.parse`, the clock, and an
injected transaction failure. -/
structure Env where
  db : DB
  files : String → Option String := fun _ => none
  embeddingConfigured : Bool := false
  embed : String → Option (List Int) := fun _ => none
  dist : List Int → List Int → Int := fun _ _ => 0
  shuffle : List ImageRow → List ImageRow := id
  aiConfigured : Bool := false
  callResult : Option JVal := none
  aiErrMsg : String := "AI request failed."
  parseJson : String → Option JVal := fun _ => none
  now : String := ""
  txError : Option String := none

/-- JS `s.slice(0, n)` (prefix of n characters). -/
def jsSlice (s : String) (n : Nat) : String :=
  String.mk (s.data.take n)

/-- `MAX_KNOWLEDGE_BASE_CHAR_LENGTH` of worker.js. -/
def MAX_KNOWLEDGE_BASE_CHAR_LENGTH : Nat := 8000

/-- `MAX_KNOWLEDGE_BASE_SNIPPETS` / `FALLBACK_KNOWLEDGE_BASE_SNIPPETS`. -/
def MAX_KNOWLEDGE_BASE_SNIPPETS : Nat := 5

/-- Chunk statistics of `getDocumentChunkStats` /
`getAggregatedChunkStats`. -/
structure ChunkStats where
  chunkCount : Nat
  embeddingCount : Nat
  totalLength : Nat
deriving Repr, DecidableEq

/-- The `document_chunks` rows of one document owned by a user. -/
def chunksFor (db : DB) (documentId userId : Nat) : List ChunkRow :=
  db.chunks.filter (fun c => c.documentId = documentId && c.userId = userId)

/-- The `document_chunks` rows of a document-id set owned by a user. -/
def chunksForDocs (db : DB) (documentIds : List Nat) (userId : Nat) : List ChunkRow :=
  db.chunks.filter (fun c => c.documentId ∈ documentIds && c.userId = userId)

/-- COUNT / SUM aggregation over a chunk row list. -/
def statsOf (rows : List ChunkRow) : ChunkStats :=
  { chunkCount := rows.length,
    embeddingCount := (rows.filter (fun c => c.embedding.isSome)).length,
    totalLength := (rows.map (fun c => c.content.length)).sum }

/-- `getDocumentChunkStats(documentId, userId)` of worker.js. -/
def getDocumentChunkStats (db : DB) (documentId userId : Nat) : ChunkStats :=
  statsOf (chunksFor db documentId userId)

/-- `getAggregatedChunkStats(documentIds, userId)` of worker.js. -/
def getAggregatedChunkStats (db : DB) (documentIds : List Nat) (userId : Nat) : ChunkStats :=
  if documentIds.isEmpty then { chunkCount := 0, embeddingCount := 0, totalLength := 0 }
  else statsOf (chunksForDocs db documentIds userId)

/-- A retrieved snippet row; `distance` is present only for the vector
tier (`embedding <-> $q AS distance`). -/
structure SnippetRow where
  chunk : ChunkRow
  distance : Option Int

/-- `fetchRelevantChunks(documentId, userId, vec, limit)`: rows with an
embedding ordered by ascending pgvector distance, top 5. -/
def fetchRelevantChunks (env : Env) (documentId userId : Nat) (qv : List Int) : List SnippetRow :=
  ((sortByLe (fun a b => env.dist (a.embedding.getD []) qv ≤ env.dist (b.embedding.getD []) qv)
      ((chunksFor env.db documentId userId).filter (fun c => c.embedding.isSome))).take
    MAX_KNOWLEDGE_BASE_SNIPPETS).map
    (fun c => { chunk := c, distance := some (env.dist (c.embedding.getD []) qv) })

/-- `fetchFallbackChunks(documentId, userId, limit)`: first 5 chunks in
`chunk_index` order. -/
def fetchFallbackChunks (env : Env) (documentId userId : Nat) : List SnippetRow :=
  ((sortByLe (fun a b => a.chunkIndex ≤ b.chunkIndex)
      (chunksFor env.db documentId userId)).take MAX_KNOWLEDGE_BASE_SNIPPETS).map
    (fun c => { chunk := c, distance := none })

/-- `fetchRelevantChunksForDocuments` of worker.js. -/
def fetchRelevantChunksForDocuments (env : Env) (documentIds : List Nat) (userId : Nat)
    (qv : List Int) : List SnippetRow :=
  if documentIds.isEmpty then []
  else
    ((sortByLe (fun a b => env.dist (a.embedding.getD []) qv ≤ env.dist (b.embedding.getD []) qv)
        ((chunksForDocs env.db documentIds userId).filter (fun c => c.embedding.isSome))).take
      MAX_KNOWLEDGE_BASE_SNIPPETS).map
      (fun c => { chunk := c, distance := some (env.dist (c.embedding.getD []) qv) })

/-- `fetchFallbackChunksForDocuments`: ordered by `document_id`,
`chunk_index`, top 5. -/
def fetchFallbackChunksForDocuments (env : Env) (documentIds : List Nat) (userId : Nat) :
    List SnippetRow :=
  if documentIds.isEmpty then []
  else
    ((sortByLe
        (fun a b =>
          a.documentId < b.documentId ||
          (a.documentId = b.documentId && a.chunkIndex ≤ b.chunkIndex))
        (chunksForDocs env.db documentIds userId)).take MAX_KNOWLEDGE_BASE_SNIPPETS).map
      (fun c => { chunk := c, distance := none })

/-- `generateQueryEmbedding(text, jobId)` of worker.js: `null` when the
service is unconfigured or the trimmed text is empty; otherwise the
service's answer (or `null` on error, folded into `env.embed`). -/
def generateQueryEmbedding (env : Env) (text : String) : Option (List Int) :=
  if !env.embeddingConfigured then none
  else if jsTrimS text = "" then none
  else env.embed (jsTrimS text)

/-- Result record of `fetchDocumentContext` / `fetchKnowledgeSetContext`. -/
structure KnowledgeResult where
  content : String
  truncated : Bool
  originalLength : Nat
  snippets : List SnippetRow
  retrievalMode : String
  chunkStats : ChunkStats
  schemaMetadata : JVal
  knowledgeSource : JVal

/-- An all-empty `KnowledgeResult` with the given mode. -/
def emptyKnowledgeResult (mode : String) (schemaMetadata knowledgeSource : JVal) :
    KnowledgeResult :=
  { content := "", truncated := false, originalLength := 0, snippets := [],
    retrievalMode := mode,
    chunkStats := { chunkCount := 0, embeddingCount := 0, totalLength := 0 },
    schemaMetadata := schemaMetadata, knowledgeSource := knowledgeSource }

/-- The vector-then-chunk tier selection of `fetchDocumentContext`
(lines 916-935): vector rows (mode `vector`) when the embedding service
is configured, embeddings exist and the query embedding succeeds;
else the first chunks in order (mode `chunk`) when any chunks exist;
else mode `none` with no rows. -/
def docTier (env : Env) (documentId userId : Nat) (queryText : String) (stats : ChunkStats) :
    String × List SnippetRow :=
  let vecRows :=
    if env.embeddingConfigured && stats.embeddingCount > 0 then
      match generateQueryEmbedding env queryText with
      | some qv => fetchRelevantChunks env documentId userId qv
      | none => []
    else []
  if !vecRows.isEmpty then ("vector", vecRows)
  else if stats.chunkCount > 0 then
    let rows := fetchFallbackChunks env documentId userId
    if !rows.isEmpty then ("chunk", rows) else ("none", rows)
  else ("none", [])

/-- `fetchDocumentContext(knowledgeBaseId, userId, jobId, queryText)` of
worker.js (the `jobId` parameter only feeds logging and is omitted). -/
def fetchDocumentContext (env : Env) (knowledgeBaseId : Option Nat) (userId : Nat)
    (queryText : String) : KnowledgeResult :=
  if !jsIdTruthy knowledgeBaseId then emptyKnowledgeResult "none" .jnull .jnull
  else
    let kb := knowledgeBaseId.getD 0
    match env.db.documents.find? (fun d => d.id = kb && d.userId = userId) with
    | none => emptyKnowledgeResult "missing" .jnull .jnull
    | some doc =>
        let stats := getDocumentChunkStats env.db doc.id userId
        let tier := docTier env doc.id userId queryText stats
        let combined := String.intercalate "\n\n" (tier.2.map (fun r => r.chunk.content))
        let source : JVal :=
          .jobj
            [("type", .jstr "document"), ("id", .jnum doc.id),
             ("name", .jstr doc.fileName), ("documentCount", .jnum 1)]
        if combined = "" then
          match env.files doc.filePath with
          | none =>
              { content := "", truncated := false, originalLength := 0, snippets := [],
                retrievalMode := "error", chunkStats := stats,
                schemaMetadata := doc.schemaMetadata, knowledgeSource := source }
          | some raw =>
              let sanitizedRaw := sanitizeKnowledgeText raw
              let truncated := sanitizedRaw.length > MAX_KNOWLEDGE_BASE_CHAR_LENGTH
              let normalized :=
                if truncated then jsSlice sanitizedRaw MAX_KNOWLEDGE_BASE_CHAR_LENGTH
                else sanitizedRaw
              let effStats := { stats with totalLength := sanitizedRaw.length }
              { content := normalized, truncated := truncated,
                originalLength :=
                  if effStats.totalLength ≠ 0 then effStats.totalLength
                  else sanitizedRaw.length,
                snippets := [], retrievalMode := "raw", chunkStats := effStats,
                schemaMetadata := doc.schemaMetadata, knowledgeSource := source }
        else
          let truncated := combined.length > MAX_KNOWLEDGE_BASE_CHAR_LENGTH
          let normalized :=
            if truncated then jsSlice combined MAX_KNOWLEDGE_BASE_CHAR_LENGTH else combined
          { content := normalized, truncated := truncated,
            originalLength := if stats.totalLength ≠ 0 then stats.totalLength else combined.length,
            snippets := tier.2, retrievalMode := tier.1, chunkStats := stats,
            schemaMetadata := doc.schemaMetadata, knowledgeSource := source }

/-- The `## file_name` heading plus chunk content used when aggregating
a knowledge set's snippet rows. -/
def setSnippetText (docs : List DocumentRow) (r : SnippetRow) : String :=
  match docs.find? (fun d => d.id = r.chunk.documentId) with
  | some d => "## " ++ d.fileName ++ "\n" ++ r.chunk.content
  | none => r.chunk.content

/-- The raw-tier loop of `fetchKnowledgeSetContext` (lines 1107-1127):
read each member document, sanitize, append a headed section when
non-empty, and stop once the joined sections reach the character
ceiling.  Unreadable files are skipped. -/
def buildRawSections (env : Env) : List DocumentRow → List String → List String
  | [], acc => acc
  | d :: ds, acc =>
      match env.files d.filePath with
      | none => buildRawSections env ds acc
      | some raw =>
          let sanitizedRaw := sanitizeKnowledgeText raw
          let acc2 :=
            if sanitizedRaw ≠ "" then acc ++ ["## " ++ d.fileName ++ "\n" ++ sanitizedRaw]
            else acc
          if (String.intercalate "\n\n" acc2).length ≥ MAX_KNOWLEDGE_BASE_CHAR_LENGTH then acc2
          else buildRawSections env ds acc2

/-- The vector-then-chunk tier selection of `fetchKnowledgeSetContext`
(lines 1072-1091), with the `_set` mode names. -/
def setTier (env : Env) (documentIds : List Nat) (userId : Nat) (queryText : String)
    (stats : ChunkStats) : String × List SnippetRow :=
  let vecRows :=
    if env.embeddingConfigured && stats.embeddingCount > 0 then
      match generateQueryEmbedding env queryText with
      | some qv => fetchRelevantChunksForDocuments env documentIds userId qv
      | none => []
    else []
  if !vecRows.isEmpty then ("vector_set", vecRows)
  else if stats.chunkCount > 0 then
    let rows := fetchFallbackChunksForDocuments env documentIds userId
    if !rows.isEmpty then ("chunk_set", rows) else ("none", rows)
  else ("none", [])

/-- `fetchKnowledgeSetContext(knowledgeSetId, userId, jobId, queryText)`
of worker.js (`jobId` feeds logging only and is omitted). -/
def fetchKnowledgeSetContext (env : Env) (knowledgeSetId userId : Nat) (queryText : String) :
    KnowledgeResult :=
  match env.db.knowledgeSets.find? (fun s => s.id = knowledgeSetId && s.userId = userId) with
  | none => emptyKnowledgeResult "missing_set" .jnull .jnull
  | some setMeta =>
      let documents :=
        sortByLe (fun a b => b.createdAt ≤ a.createdAt)
          (env.db.documents.filter (fun d =>
            d.userId = userId && d.knowledgeSetId = some knowledgeSetId))
      if documents.isEmpty then
        emptyKnowledgeResult "empty_set" setMeta.schemaMetadata
          (.jobj
            [("type", .jstr "set"), ("id", .jnum setMeta.id), ("name", .jstr setMeta.name),
             ("documentCount", .jnum 0), ("documents", .jarr [])])
      else
        let documentIds := documents.map (·.id)
        let stats := getAggregatedChunkStats env.db documentIds userId
        let tier := setTier env documentIds userId queryText stats
        let combined0 := String.intercalate "\n\n" (tier.2.map (setSnippetText documents))
        let (combined, mode) :=
          if combined0 = "" then
            let sections := buildRawSections env documents []
            let c := String.intercalate "\n\n" sections
            (c, if c ≠ "" then "raw_set" else "error")
          else (combined0, tier.1)
        let docListJ : JVal :=
          .jarr (documents.map (fun d =>
            .jobj [("id", .jnum d.id), ("name", .jstr d.fileName)]))
        let source : JVal :=
          .jobj
            [("type", .jstr "set"), ("id", .jnum setMeta.id), ("name", .jstr setMeta.name),
             ("documentCount", .jnum documents.length), ("documents", docListJ)]
        if combined = "" then
          { content := "", truncated := false, originalLength := 0, snippets := [],
            retrievalMode := "error", chunkStats := stats,
            schemaMetadata := setMeta.schemaMetadata, knowledgeSource := source }
        else
          let truncated := combined.length > MAX_KNOWLEDGE_BASE_CHAR_LENGTH
          let normalized :=
            if truncated then jsSlice combined MAX_KNOWLEDGE_BASE_CHAR_LENGTH else combined
          let documentSchemaEntries :=
            (documents.filter (fun d => jTruthy d.schemaMetadata)).map (fun d =>
              JVal.jobj
                [("id", .jnum d.id), ("name", .jstr d.fileName),
                 ("schemaMetadata", d.schemaMetadata)])
          let combinedSchemaMetadata : JVal :=
            if jTruthy setMeta.schemaMetadata || !documentSchemaEntries.isEmpty then
              .jobj
                [("knowledgeSet",
                   if jTruthy setMeta.schemaMetadata then setMeta.schemaMetadata else .jnull),
                 ("documents", .jarr documentSchemaEntries)]
            else .jnull
          { content := normalized, truncated := truncated,
            originalLength :=
              if stats.totalLength ≠ 0 then stats.totalLength else normalized.length,
            snippets := if combined0 = "" then [] else tier.2,
            retrievalMode := mode, chunkStats := stats,
            schemaMetadata := combinedSchemaMetadata, knowledgeSource := source }

/-- `fetchKnowledgeBaseContent({knowledgeBaseId, knowledgeSetId, ...})`:
dispatches to the set variant when `knowledgeSetId` is truthy. -/
def fetchKnowledgeBaseContent (env : Env) (knowledgeBaseId knowledgeSetId : Option Nat)
    (userId : Nat) (queryText : String) : KnowledgeResult :=
  if jsIdTruthy knowledgeSetId then
    fetchKnowledgeSetContext env (knowledgeSetId.getD 0) userId queryText
  else fetchDocumentContext env knowledgeBaseId userId queryText

/-- `fetchImagesByIds(imageIds, userId)`: the owned rows matching the id
list (empty input short-circuits). -/
def fetchImagesByIds (db : DB) (imageIds : Option (List Nat)) (userId : Nat) : List ImageRow :=
  match imageIds with
  | none => []
  | some ids =>
      if ids.isEmpty then []
      else db.images.filter (fun i => i.id ∈ ids && i.userId = userId)

/-- Any-overlap tag filter (`tags && $n` in SQL). -/
def tagsOverlap (tags filters : List String) : Bool :=
  tags.any (fun t => t ∈ filters)

/-- `fetchImagesFromCollection(collectionId, userId, limit, tagFilters)`:
owned rows of the collection, tag-filtered when filters are given, in
`RANDOM()` order, capped only when `limit` is truthy. -/
def fetchImagesFromCollection (env : Env) (collectionId : Option Nat) (userId : Nat)
    (limit : Nat) (tagFilters : List String) : List ImageRow :=
  if !jsIdTruthy collectionId then []
  else
    let rows :=
      env.db.images.filter (fun i =>
        i.userId = userId && i.collectionId = collectionId &&
        (tagFilters.isEmpty || tagsOverlap i.tags tagFilters))
    let shuffled := env.shuffle rows
    if limit ≠ 0 then shuffled.take limit else shuffled

/-- `fetchImagesFromLibrary(userId, limit, tagFilters)`: owned rows with
`collection_id IS NULL`, tag-filtered when filters are given, in
`RANDOM()` order, capped only when `limit > 0`. -/
def fetchImagesFromLibrary (env : Env) (userId : Nat) (limit : Nat)
    (tagFilters : List String) : List ImageRow :=
  let rows :=
    env.db.images.filter (fun i =>
      i.userId = userId && i.collectionId = none &&
      (tagFilters.isEmpty || tagsOverlap i.tags tagFilters))
  let shuffled := env.shuffle rows
  if limit > 0 then shuffled.take limit else shuffled

/-- `formatImageGuidance(images)` of worker.js. -/
def formatImageGuidance (images : List ImageRow) : String :=
  if images.isEmpty then ""
  else
    String.intercalate "\n"
      (((List.range images.length).zip images).map (fun p =>
        "Image " ++ toString (p.1 + 1) ++ ": Name - " ++ p.2.imageName ++ ", Tags - " ++
        (if p.2.tags.isEmpty then "N/A" else String.intercalate ", " p.2.tags)))

/-- `resolveImages({manualImageIds, collectionId, requestedCount,
tagFilters, userId})` of worker.js: a non-empty explicit id list wins,
else a truthy collection id, else the library query. -/
def resolveImages (env : Env) (manualImageIds : Option (List Nat)) (collectionId : Option Nat)
    (requestedCount : Nat) (tagFilters : List String) (userId : Nat) :
    List ImageRow × String :=
  let images :=
    match manualImageIds with
    | some (i :: is) => fetchImagesByIds env.db (some (i :: is)) userId
    | _ =>
        if jsIdTruthy collectionId then
          fetchImagesFromCollection env collectionId userId requestedCount tagFilters
        else fetchImagesFromLibrary env userId requestedCount tagFilters
  (images, formatImageGuidance images)

/-- `buildFallbackContent(keyword, rule, knowledgeBaseContent,
selectedImages)` of worker.js: the deterministic templated content with
`[IMAGE_n]` placeholders spliced in when images were resolved. -/
def buildFallbackContent (keyword : String) (rule : Option RuleRow)
    (knowledgeBaseContent : String) (selectedImages : List ImageRow) : JVal :=
  let sections0 : List String :=
    ["## Why " ++ keyword ++ " Matters",
     "Discuss the importance of " ++ keyword ++
       " for the target audience and how it connects to current market dynamics.",
     "## Best Practices",
     "Provide actionable tips, referencing any knowledge base snippets and highlighting when images should be inserted.",
     "## Next Steps",
     "Offer a clear call to action and summarize the benefits of adopting strategies related to " ++
       keyword ++ "."]
  let placeholders :=
    if selectedImages.isEmpty then ""
    else
      String.intercalate "\n\n"
        ((List.range selectedImages.length).map (fun i =>
          "[IMAGE_" ++ toString (i + 1) ++ "]"))
  let sections :=
    if placeholders ≠ "" then
      sections0.take 2 ++
        ["## Visual Inspiration", "Incorporate the following visuals:\n\n" ++ placeholders] ++
        sections0.drop 2
    else sections0
  .jobj
    [("title", .jstr ("Essential Guide to " ++ keyword)),
     ("meta_description", .jstr
       ("Discover how " ++ keyword ++
        " can impact your marketing strategy with practical steps tailored to your needs.")),
     ("body", .jstr (String.intercalate "\n\n" sections)),
     ("details", .jobj
       [("appliedRule", .jstr
          (match rule with
           | some r => if r.ruleName ≠ "" then r.ruleName else "default"
           | none => "default")),
        ("hasKnowledgeBase", .jbool (knowledgeBaseContent ≠ "")),
        ("imagesIncluded", .jbool (!selectedImages.isEmpty))])]

/-- `ensureStructuredContent(rawContent, keyword, rule,
knowledgeBaseContent, selectedImages)` of worker.js: keep the parsed
object only when truthy with string-typed `title`, `meta_description`
and `body`; otherwise the fallback template. -/
def ensureStructuredContent (rawContent : Option JVal) (keyword : String)
    (rule : Option RuleRow) (knowledgeBaseContent : String)
    (selectedImages : List ImageRow) : JVal :=
  match rawContent with
  | none => buildFallbackContent keyword rule knowledgeBaseContent selectedImages
  | some v =>
      if !jTruthy v then buildFallbackContent keyword rule knowledgeBaseContent selectedImages
      else
        match jget v "title", jget v "meta_description", jget v "body" with
        | .jstr _, .jstr _, .jstr _ => v
        | _, _, _ => buildFallbackContent keyword rule knowledgeBaseContent selectedImages

/-- `withTransaction(callback)` of `db.js`: `BEGIN`, run the callback,
`COMMIT` on success; on failure `ROLLBACK` (the state is unchanged) and
the error is rethrown. -/
def withTransaction (st : σ) (f : σ → Except String (σ × ρ)) : σ × Except String ρ :=
  match f st with
  | .ok (st2, r) => (st2, .ok r)
  | .error e => (st, .error e)

/-- The `generatedContent` / `fallbackReason` pair produced by the AI
section of the worker (lines 1413-1493): unconfigured AI and a failed
request set a fallback reason; an empty extracted/normalized message
leaves both `null`; a JSON.parse throw sets the parse fallback reason. -/
def computeGenerated (env : Env) : Option JVal × Option String :=
  if !env.aiConfigured then (none, some "AI service is not configured.")
  else
    match env.callResult with
    | none => (none, some env.aiErrMsg)
    | some data =>
        match normalizeJsonContent (extractMessagePayload data) with
        | none => (none, none)
        | some s =>
            if s = "" then (none, none)
            else
              match env.parseJson s with
              | some v => (some v, none)
              | none => (none, some "AI response parsing failed.")

/-- The sequence of `job.updateProgress` calls of one worker attempt
(stage, percent), parameterized by the branch conditions: AI configured
(`building_prompt`), request succeeded (`awaiting_ai_response`),
fallback reason present, schema record present, transaction failed. -/
def attemptStages (aiConf gotResp fb rec txFail : Bool) : List (String × Nat) :=
  [("initializing", 5), ("loading_knowledge_base", 15), ("loading_images", 30)] ++
  (if aiConf then [("building_prompt", 45)] else []) ++
  (if gotResp then [("awaiting_ai_response", 65)] else []) ++
  (if fb then [("fallback", 75)] else []) ++
  (if rec then [("schema_processed", if fb then 82 else 78)] else []) ++
  [("persisting", if fb then 85 else 80)] ++
  (if txFail then [("failed", 100)] else [("completed", 100)])

/-- `safeContent.details = { ...(safeContent.details || {}), key: value }`
(`safeContent` is always an object here). -/
def attachDetail (content : JVal) (key : String) (v : JVal) : JVal :=
  match content with
  | .jobj fs =>
      .jobj (setField fs "details" (.jobj (setField (jEntries (jget (.jobj fs) "details")) key v)))
  | x => x

/-- `vectorLiteral`-style JVal of an optional id (`null` when absent). -/
def optIdToJ : Option Nat → JVal
  | some n => .jnum n
  | none => .jnull

/-- Everything one worker attempt produces and observes: the reported
progress updates, the `generated_content` table after the transaction,
the processor's outcome (`ok` row or rethrown error), the final
in-memory `safeContent` object, the fallback reason, the merged schema
config, the `processSchemaOutput` result and the row handed to the
`INSERT`. -/
structure WorkerOutcome where
  progress : List (String × Nat)
  contentTable : List ContentRow
  result : Except String ContentRow
  finalContent : JVal
  contentBeforeSchema : JVal
  fallbackReason : Option String
  mergedConfig : MergedSchemaConfig
  schemaOut : SchemaOut
  insertedRow : ContentRow
  selectedImages : List ImageRow
  kbResult : KnowledgeResult

/-- The data of one `content-generation` job. -/
structure JobData where
  keyword : String := ""
  knowledgeBaseId : Option Nat := none
  knowledgeSetId : Option Nat := none
  imageIds : Option (List Nat) := none
  imageCollectionId : Option Nat := none
  imageTags : Option (List String) := none
  imageCount : Option Nat := none
  ruleId : Option Nat := none
  userId : Nat := 0
  schemaConfig : JVal := .jnull
  schemaEntities : JVal := .jobj []
  schemaOverrides : JVal := .jnull

/-- `fetchRule(ruleId, userId)` of worker.js. -/
def fetchRule (db : DB) (ruleId : Option Nat) (userId : Nat) : Option RuleRow :=
  if !jsIdTruthy ruleId then none
  else db.rules.find? (fun r => some r.id = ruleId && r.userId = userId)

/-- The merged schema config of a job
(`mergeSchemaConfig(rule?.schema_config, jobSchemaConfig, schemaOverrides)`). -/
def mergedConfigOf (env : Env) (job : JobData) : MergedSchemaConfig :=
  mergeSchemaConfig
    [(match fetchRule env.db job.ruleId job.userId with
      | some r => r.schemaConfig
      | none => .jnull),
     job.schemaConfig, job.schemaOverrides]

/-- The worker's per-job processor (lines 1325-1600 of worker.js),
as a pure function of the effect environment and the job data. -/
def processJob (env : Env) (job : JobData) : WorkerOutcome :=
  let rule := fetchRule env.db job.ruleId job.userId
  let mergedSchemaConfig := mergedConfigOf env job
  let queryCands : List JVal :=
    [.jstr job.keyword,
     (match rule with | some r => .jstr r.ruleName | none => .jnull),
     (match rule with | some r => jget r.seoSettings "primary_keyword" | none => .jnull)]
  let knowledgeQueryText :=
    String.intercalate " " ((queryCands.filter jTruthy).map jToString)
  let queryArg :=
    if knowledgeQueryText ≠ "" then knowledgeQueryText
    else if job.keyword ≠ "" then job.keyword
    else
      match rule with
      | some r => if r.ruleName ≠ "" then r.ruleName else ""
      | none => ""
  let kb := fetchKnowledgeBaseContent env job.knowledgeBaseId job.knowledgeSetId job.userId queryArg
  let entitiesBase := jEntries job.schemaEntities
  let resolvedSchemaEntities : JVal :=
    if jTruthy kb.schemaMetadata then
      let cur := (lookupField entitiesBase "knowledgeBase").getD .jnull
      if jTruthy cur then
        .jobj (setField entitiesBase "knowledgeBase"
          (.jobj (setField (jEntries cur) "schemaMetadata"
            (if jTruthy (jget cur "schemaMetadata") then jget cur "schemaMetadata"
             else kb.schemaMetadata))))
      else
        .jobj (setField entitiesBase "knowledgeBase"
          (.jobj
            [("id", firstTruthy
               [jget kb.knowledgeSource "id", optIdToJ job.knowledgeBaseId,
                optIdToJ job.knowledgeSetId]),
             ("type", firstTruthy
               [jget kb.knowledgeSource "type",
                .jstr (if jsIdTruthy job.knowledgeSetId then "set" else "document")]),
             ("schemaMetadata", kb.schemaMetadata)]))
    else .jobj entitiesBase
  let requestedImageCount :=
    match job.imageCount with
    | some n => n
    | none =>
        match rule with
        | some r =>
            match jget r.mediaSettings "image_count" with
            | .jnum n => n.toNat
            | _ => 0
        | none => 0
  let tagFilters :=
    match job.imageTags with
    | some (t :: ts) => t :: ts
    | _ =>
        match rule with
        | some r =>
            match jget (jget r.mediaSettings "image_source") "tags" with
            | .jarr l => l.map jToString
            | _ => []
        | none => []
  let collectionId :=
    if jsIdTruthy job.imageCollectionId then job.imageCollectionId
    else
      match rule with
      | some r =>
          match jget (jget r.mediaSettings "image_source") "collection_id" with
          | .jnum n => if n ≠ 0 then some n.toNat else none
          | _ => none
      | none => none
  let resolved := resolveImages env job.imageIds collectionId requestedImageCount
    tagFilters job.userId
  let selectedImages := resolved.1
  let gen := computeGenerated env
  let generatedContent := gen.1
  let fallbackReason := gen.2
  let safeContent0 :=
    ensureStructuredContent generatedContent job.keyword rule kb.content selectedImages
  let statsJ : JVal :=
    .jobj
      [("chunkCount", .jnum kb.chunkStats.chunkCount),
       ("embeddingCount", .jnum kb.chunkStats.embeddingCount),
       ("totalLength", .jnum kb.chunkStats.totalLength)]
  let snippetsJ : JVal :=
    .jarr (kb.snippets.map (fun r =>
      JVal.jobj
        ([("documentId", .jnum r.chunk.documentId),
          ("chunkIndex", .jnum r.chunk.chunkIndex),
          ("preview", .jstr (jsSlice r.chunk.content 200))] ++
         (match r.distance with
          | some d => [("score", JVal.jnum d)]
          | none => []))))
  let safeContent1 :=
    attachDetail safeContent0 "knowledgeBase"
      (.jobj
        [("includedSnippetCount", .jnum kb.snippets.length),
         ("retrievalMode", .jstr kb.retrievalMode),
         ("truncated", .jbool kb.truncated),
         ("originalCombinedLength", .jnum kb.originalLength),
         ("includedLength", .jnum kb.content.length),
         ("chunkStats", statsJ),
         ("snippets", snippetsJ),
         ("source", if jTruthy kb.knowledgeSource then kb.knowledgeSource else .jnull)])
  let schemaOut :=
    processSchemaOutput
      (match generatedContent with
       | some g => if jTruthy g then g else safeContent1
       | none => safeContent1)
      mergedSchemaConfig resolvedSchemaEntities env.now
  let safeContent2 :=
    match schemaOut.record with
    | some r =>
        if jTruthy (jget r "fallback") then
          attachDetail safeContent1 "schemaFallback" (jget r "fallback")
        else safeContent1
    | none => safeContent1
  let safeContent3 :=
    if !schemaOut.types.isEmpty then
      attachDetail safeContent2 "schemaTypes" (.jarr (schemaOut.types.map .jstr))
    else safeContent2
  let safeContent4 :=
    match fallbackReason with
    | some fr => attachDetail safeContent3 "fallbackReason" (.jstr fr)
    | none => safeContent3
  let imageIdList :=
    if !selectedImages.isEmpty then selectedImages.map (·.id)
    else (job.imageIds.getD [])
  let schemaTypeArray :=
    if !schemaOut.types.isEmpty then some schemaOut.types else none
  let row : ContentRow :=
    { userId := job.userId,
      ruleId := if jsIdTruthy job.ruleId then job.ruleId else none,
      title := jget safeContent4 "title",
      metaDescription := jget safeContent4 "meta_description",
      body := jget safeContent4 "body",
      imageIds := imageIdList,
      schemaPayload := schemaOut.record,
      schemaTypes := schemaTypeArray }
  let tx :=
    withTransaction env.db.generatedContent (fun tbl =>
      match env.txError with
      | some e => .error e
      | none => .ok (tbl ++ [row], row))
  { progress :=
      attemptStages env.aiConfigured (env.aiConfigured && env.callResult.isSome)
        fallbackReason.isSome schemaOut.record.isSome env.txError.isSome,
    contentTable := tx.1,
    result := tx.2,
    finalContent := safeContent4,
    contentBeforeSchema := safeContent1,
    fallbackReason := fallbackReason,
    mergedConfig := mergedSchemaConfig,
    schemaOut := schemaOut,
    insertedRow := row,
    selectedImages := selectedImages,
    kbResult := kb }

/-- The progress sequence a polling client observes across the enqueue
route and one worker attempt: the route reports `queued(10)` right
after `contentQueue.add`, then the worker attempt runs. -/
def reportedProgress (env : Env) (job : JobData) : List (String × Nat) :=
  ("queued", 10) :: (processJob env job).progress

/-- Body of a `POST /api/content/generate` request (after passing the
Joi schema, which does not mention `knowledgeSetId` and strips unknown
keys without erroring). -/
structure GenerateReq where
  keyword : String := ""
  knowledgeBaseId : Option Nat := none
  knowledgeSetId : Option Nat := none
  imageIds : Option (List Nat) := none
  imageCollectionId : Option Nat := none
  imageTags : Option (List String) := none
  imageCount : Option Nat := none
  ruleId : Option Nat := none
  schemaConfig : JVal := .jnull
  schemaEntities : JVal := .jobj []
  schemaOverrides : JVal := .jnull

/-- Outcome of the `/generate` route handler. -/
inductive RouteOutcome where
  | clientError (status : Nat) (message : String)
  | accepted (status : Nat) (job : JobData) (progress : String × Nat)
  | serverError (status : Nat)

/-- The job enqueued by the route for a request body. -/
def jobOfReq (req : GenerateReq) (userId : Nat) : JobData :=
  { keyword := req.keyword, knowledgeBaseId := req.knowledgeBaseId,
    knowledgeSetId := req.knowledgeSetId, imageIds := req.imageIds,
    imageCollectionId := req.imageCollectionId, imageTags := req.imageTags,
    imageCount := req.imageCount, ruleId := req.ruleId, userId := userId,
    schemaConfig := req.schemaConfig, schemaEntities := req.schemaEntities,
    schemaOverrides := req.schemaOverrides }

/-- The `router.post('/generate')` handler of routes/content.js:
a truthy `knowledgeBaseId` together with a truthy `knowledgeSetId` is
rejected with a 400 `AppError` before `contentQueue.add`; otherwise the
job is enqueued (`enqueueOk` models queue availability) and `202` is
answered with the `queued(10)` progress. -/
def generateRoute (req : GenerateReq) (userId : Nat) (enqueueOk : Bool) : RouteOutcome :=
  if jsIdTruthy req.knowledgeBaseId && jsIdTruthy req.knowledgeSetId then
    .clientError 400 "Choose either a knowledge set or a single knowledge base document."
  else if enqueueOk then .accepted 202 (jobOfReq req userId) ("queued", 10)
  else .serverError 500

/-- Last index `i ≤ upTo` of `l` holding `ch` (JS
`lastIndexOf(ch, upTo)`). -/
def lastIdxUpTo (l : List Char) (ch : Char) (upTo : Nat) : Option Nat :=
  (List.range (min (upTo + 1) l.length)).foldl
    (fun acc i => if l.get? i = some ch then some i else acc) none

/-- The chunk-end computation of one `splitIntoChunks` iteration:
`end = min(start + CHUNK_SIZE, length)`, moved back to the last newline
(else the last space) when that lies past `start + CHUNK_SIZE * 0.5`. -/
def chunkStop (text : List Char) (start : Nat) : Nat :=
  let stop0 := min (start + 800) text.length
  if stop0 < text.length then
    match lastIdxUpTo text '\n' stop0 with
    | some ni =>
        if ni > start + 400 then ni
        else
          match lastIdxUpTo text ' ' stop0 with
          | some si => if si > start + 400 then si else stop0
          | none => stop0
    | none =>
        match lastIdxUpTo text ' ' stop0 with
        | some si => if si > start + 400 then si else stop0
        | none => stop0
  else stop0

/-- The `while` loop of `splitIntoChunks` (routes/documents.js):
`CHUNK_SIZE = 800`, `CHUNK_OVERLAP = 200`, `MAX_CHUNKS_PER_DOCUMENT =
256`. `fuel` bounds the iteration count; the loop advances `start` by
at least 1 each round, so `text.length` rounds always suffice. -/
def splitLoop (text : List Char) (fuel start chunkCount : Nat) (acc : List String) :
    List String :=
  match fuel with
  | 0 => acc
  | f + 1 =>
      if start < text.length ∧ chunkCount < 256 then
        let stop := chunkStop text start
        let chunk := jsTrimChars ((text.drop start).take (stop - start))
        let acc2 := if chunk ≠ [] then acc ++ [String.mk chunk] else acc
        let cnt2 := if chunk ≠ [] then chunkCount + 1 else chunkCount
        if stop ≥ text.length then acc2
        else splitLoop text f (max (stop - 200) (start + 1)) cnt2 acc2
      else acc

/-- `splitIntoChunks(raw)` of routes/documents.js: sanitize, split with
overlap, and fall back to one head slice when nothing was produced. -/
def splitIntoChunks (raw : String) : List String :=
  let text := sanitizeText raw
  if text = "" then []
  else
    let chunks := splitLoop text.data text.length 0 0 []
    if chunks.isEmpty then [String.mk (text.data.take 800)] else chunks

/-- Fixture: a job environment with no rule, no knowledge scope, no
images and the AI service unconfigured. -/
def envPlain : Env := { db := {} }

/-- Fixture: a minimal job. -/
def jobPlain : JobData := { keyword := "organic skincare", userId := 1 }

/-- The `enabledTypes` a single layer contributes to the merge (the
guard `Array.isArray(cfg.enabledTypes) && cfg.enabledTypes.length`
with the `String(...)` coercion of each entry). -/
def extractEnabledTypes (cfg : JVal) : List String :=
  match jget cfg "enabledTypes" with
  | .jarr (t :: ts) => (t :: ts).map jToString
  | _ => []

/-- Fixture: a rule-layer config that disables the module while
declaring a type. -/
def ruleCfgLayerOff : JVal :=
  .jobj [("enabled", .jbool false), ("enabledTypes", .jarr [.jstr "Product"])]

/-- Fixture: a job-layer config that re-enables the module. -/
def jobCfgLayerOn : JVal := .jobj [("enabled", .jbool true)]

/-- Fixture: a job-layer config contributing one enabled type. -/
def jobCfgProduct : JVal := .jobj [("enabledTypes", .jarr [.jstr "Product"])]

/-- The `title`/`meta_description`/`body` string-shape check of
`ensureStructuredContent` (truthy object with three string fields). -/
def jValidShape (v : JVal) : Bool :=
  jTruthy v &&
  (match jget v "title", jget v "meta_description", jget v "body" with
   | .jstr _, .jstr _, .jstr _ => true
   | _, _, _ => false)

/-- Fixture: AI configured, the chat call succeeds, and the response
text parses to a JSON object carrying `title` and `meta_description`
but no `body`. -/
def envShapeBad : Env :=
  { db := {}, aiConfigured := true,
    callResult := some (.jobj [("content", .jstr "OBJ")]),
    parseJson := fun s =>
      if s = "OBJ" then some (.jobj [("title", .jstr "t"), ("meta_description", .jstr "m")])
      else none }

/-- Fixture: an environment whose persistence transaction fails. -/
def envTxFail : Env := { db := {}, txError := some "connection reset" }

/-- Fixture: a request body naming both a document and a knowledge
set. -/
def reqBothScopes : GenerateReq :=
  { keyword := "organic skincare", knowledgeBaseId := some 3, knowledgeSetId := some 5,
    ruleId := some 1 }

/-- Fixture: an owned document. -/
def docW : DocumentRow := { id := 1, userId := 7, fileName := "guide.txt", filePath := "docs/guide.txt" }

/-- Fixture: one stored chunk of `docW`, without an embedding. -/
def chunkW : ChunkRow := { documentId := 1, userId := 7, chunkIndex := 0, content := "skincare basics" }

/-- Fixture: a database holding `docW` and `chunkW` (no files readable). -/
def envDocChunk : Env := { db := { documents := [docW], chunks := [chunkW] } }

def strA : String := String.mk (List.replicate 7995 'a')

def strB : String := String.mk (List.replicate 1005 'a')

def docA : DocumentRow :=
  { id := 11, userId := 7, fileName := "X", filePath := "pa",
    knowledgeSetId := some 5, createdAt := 2 }

def docB : DocumentRow :=
  { id := 12, userId := 7, fileName := "Y", filePath := "pb",
    knowledgeSetId := some 5, createdAt := 1 }

def ks5 : KnowledgeSetRow := { id := 5, userId := 7, name := "KS" }

def envKS : Env :=
  { db := { documents := [docA, docB], knowledgeSets := [ks5] },
    files := fun p => if p = "pa" then some strA else if p = "pb" then some strB else none }

def strC : String := String.mk (List.replicate 4500 'a')

def docC : DocumentRow :=
  { id := 21, userId := 7, fileName := "X", filePath := "pc",
    knowledgeSetId := some 6, createdAt := 2 }

def docD : DocumentRow :=
  { id := 22, userId := 7, fileName := "Y", filePath := "pd",
    knowledgeSetId := some 6, createdAt := 1 }

def ks6 : KnowledgeSetRow := { id := 6, userId := 7, name := "KS2" }

def envKS2 : Env :=
  { db := { documents := [docC, docD], knowledgeSets := [ks6] },
    files := fun p => if p = "pc" then some strC else if p = "pd" then some strC else none }

/-- The library branch as the specification words it: a random sample
drawn from the user's FULL image library (no collection restriction),
filtered by tag overlap, with a zero limit meaning no cap.  Written for
comparison against `fetchImagesFromLibrary`, whose SQL adds
`collection_id IS NULL`. -/
def fetchImagesFromLibrarySpec (env : Env) (userId : Nat) (limit : Nat)
    (tagFilters : List String) : List ImageRow :=
  let rows :=
    env.db.images.filter (fun i =>
      i.userId = userId && (tagFilters.isEmpty || tagsOverlap i.tags tagFilters))
  let shuffled := env.shuffle rows
  if limit > 0 then shuffled.take limit else shuffled

def imgColl : ImageRow := { id := 31, userId := 7, tags := ["t"], collectionId := some 9 }

def envImg : Env := { db := { images := [imgColl] } }

theorem selectSchemaTypes_subset (container candidate : JVal) (enabled : List String)
    (t : String) (ht : t ∈ selectSchemaTypes container candidate enabled) :
    enabled.isEmpty = true ∨ t ∈ enabled := by
  unfold selectSchemaTypes at ht
  by_cases he : enabled.isEmpty = true
  · exact Or.inl he
  · right
    simp only [] at ht
    simp only [he, Bool.not_false, Bool.true_and] at ht
    generalize (match jget container "types" with
      | JVal.jarr ts => List.map jToString ts
      | _ => ([] : List String)) = ts0 at ht
    generalize jObjectKeys candidate = keys at ht
    repeat split at ht
    all_goals try exact (List.mem_filter.mp ht).1
    all_goals try simp_all [List.mem_filter, List.isEmpty_iff]
    all_goals repeat split at ht
    all_goals try exact (List.mem_filter.mp ht).1
    all_goals simp_all [List.mem_filter, List.isEmpty_iff]

theorem processSchemaOutput_types_subset (raw : JVal) (cfg : MergedSchemaConfig)
    (ent : JVal) (now : String) (t : String)
    (ht : t ∈ (processSchemaOutput raw cfg ent now).types) :
    t ∈ getEnabledSchemaTypes cfg := by
  unfold processSchemaOutput at ht
  split at ht
  · simp at ht
  · rename_i hen
    simp only [Bool.not_eq_true', Bool.not_eq_false] at hen
    have hne : (getEnabledSchemaTypes cfg).isEmpty = false := by
      unfold isSchemaModuleEnabled at hen
      split at hen
      · exact absurd hen (by simp)
      · simpa using hen
    simp only [] at ht
    split at ht
    · simp at ht
    · split at ht
      · simp at ht
      · split at ht
        · simp at ht
        · simp only at ht
          rcases selectSchemaTypes_subset _ _ _ t ht with h | h
          · rw [hne] at h
            exact absurd h (by simp)
          · exact h

theorem processJob_table_eq (env : Env) (job : JobData) :
    (processJob env job).contentTable =
      match env.txError with
      | some _ => env.db.generatedContent
      | none => env.db.generatedContent ++ [(processJob env job).insertedRow] := by
  rcases h : env.txError with _ | e
  · unfold processJob withTransaction
    simp only [h]
  · unfold processJob withTransaction
    simp only [h]

theorem processJob_schemaTypes_eq (env : Env) (job : JobData) :
    (processJob env job).insertedRow.schemaTypes =
      (if !(processJob env job).schemaOut.types.isEmpty
       then some (processJob env job).schemaOut.types else none) := rfl

theorem processJob_schemaOut_eq (env : Env) (job : JobData) :
    ∃ raw ents, (processJob env job).schemaOut =
      processSchemaOutput raw (mergedConfigOf env job) ents env.now :=
  ⟨_, _, rfl⟩

/-- C1: every `generated_content` row the worker persists has
`schema_types` either `NULL` or a subset of the enabled types resolved
from the job's merged schema config (`processSchemaOutput` never emits
a type name absent from `getEnabledSchemaTypes` of the merged
config). -/
theorem generated_schema_types_subset (env : Env) (job : JobData) :
    ∀ r ∈ (processJob env job).contentTable,
      r ∈ env.db.generatedContent ∨
      r.schemaTypes = none ∨
      ∃ ts, r.schemaTypes = some ts ∧
        ∀ t ∈ ts, t ∈ getEnabledSchemaTypes (mergedConfigOf env job) := by
  intro r hr
  rw [processJob_table_eq] at hr
  rcases h : env.txError with _ | e
  · rw [h] at hr
    rcases List.mem_append.mp hr with h1 | h1
    · exact Or.inl h1
    · have hre : r = (processJob env job).insertedRow := by simpa using h1
      right
      rw [hre, processJob_schemaTypes_eq]
      by_cases hemp : (processJob env job).schemaOut.types.isEmpty
      · left
        simp [hemp]
      · right
        refine ⟨(processJob env job).schemaOut.types, by simp [hemp], ?_⟩
        intro t htin
        obtain ⟨raw, ents, heq⟩ := processJob_schemaOut_eq env job
        rw [heq] at htin
        exact processSchemaOutput_types_subset _ _ _ _ _ htin
  · rw [h] at hr
    exact Or.inl hr

theorem attemptStages_chain (a b c d e : Bool) :
    List.Chain' (· < ·) ((attemptStages a b c d e).map (·.2)) := by
  cases a <;> cases b <;> cases c <;> cases d <;> cases e <;>
    simp [attemptStages, List.chain'_cons]

/-- C7 (amended): within one worker attempt the reported progress
percents — `initializing(5)` through `completed(100)`/`failed(100)` —
are strictly increasing; the claim as stated fails because the route's
`queued(10)` update precedes the worker's `initializing(5)`. -/
theorem attempt_progress_strictly_increasing (env : Env) (job : JobData) :
    List.Chain' (· < ·) ((processJob env job).progress.map (·.2)) := by
  have h : (processJob env job).progress =
      attemptStages env.aiConfigured (env.aiConfigured && env.callResult.isSome)
        (processJob env job).fallbackReason.isSome
        (processJob env job).schemaOut.record.isSome env.txError.isSome := rfl
  rw [h]
  exact attemptStages_chain _ _ _ _ _

/-- C7 (counterexample): the full reported sequence of the claim —
`queued(10)` at enqueue followed by the worker attempt starting at
`initializing(5)` — is not strictly increasing (10 > 5). -/
theorem reported_progress_not_strictly_increasing :
    ¬ List.Chain' (· < ·) ((reportedProgress envPlain jobPlain).map (·.2)) := by
  have h : reportedProgress envPlain jobPlain =
      ("queued", 10) :: attemptStages false false true false false := rfl
  rw [h]
  simp [attemptStages, List.chain'_cons]

theorem step_enabledTypes (acc : MergedSchemaConfig) (cfg : JVal) :
    (mergeSchemaConfigStep acc cfg).enabledTypes =
      match jget cfg "enabledTypes" with
      | .jarr (t :: ts) =>
          some (dedupKeepFirst (acc.enabledTypes.getD [] ++ (t :: ts).map jToString))
      | _ => acc.enabledTypes := by
  unfold mergeSchemaConfigStep
  simp only []
  repeat' split
  all_goals rfl

theorem mem_dedupSeen (t : String) : ∀ (l seen : List String),
    t ∈ dedupSeen seen l ↔ (t ∈ l ∧ t ∉ seen) := by
  intro l
  induction l with
  | nil =>
      intro seen
      simp [dedupSeen]
  | cons x xs ih =>
      intro seen
      unfold dedupSeen
      by_cases hx : x ∈ seen
      · simp only [hx, if_true, ih]
        constructor
        · rintro ⟨h1, h2⟩
          exact ⟨List.mem_cons_of_mem _ h1, h2⟩
        · rintro ⟨h1, h2⟩
          rcases List.mem_cons.mp h1 with rfl | h1
          · exact absurd hx h2
          · exact ⟨h1, h2⟩
      · simp only [hx, if_false]
        constructor
        · intro h
          rcases List.mem_cons.mp h with rfl | h
          · exact ⟨List.mem_cons_self _ _, hx⟩
          · have := (ih _).mp h
            refine ⟨List.mem_cons_of_mem _ this.1, ?_⟩
            intro hs
            exact this.2 (List.mem_cons_of_mem _ hs)
        · rintro ⟨h1, h2⟩
          rcases List.mem_cons.mp h1 with rfl | h1
          · exact List.mem_cons_self _ _
          · by_cases he : t = x
            · subst he
              exact List.mem_cons_self _ _
            · refine List.mem_cons_of_mem _ ((ih _).mpr ⟨h1, ?_⟩)
              intro hs
              rcases List.mem_cons.mp hs with h | h
              · exact he h
              · exact h2 h

theorem mem_dedupKeepFirst (t : String) (l : List String) :
    t ∈ dedupKeepFirst l ↔ t ∈ l := by
  unfold dedupKeepFirst
  rw [mem_dedupSeen]
  simp

theorem foldl_enabledTypes_mono (t : String) : ∀ (cfgs : List JVal) (acc : MergedSchemaConfig),
    (t ∈ acc.enabledTypes.getD [] ∨ ∃ c ∈ cfgs, t ∈ extractEnabledTypes c) →
    t ∈ (List.foldl mergeSchemaConfigStep acc cfgs).enabledTypes.getD [] := by
  intro cfgs
  induction cfgs with
  | nil =>
      intro acc h
      simpa using h.resolve_right (by simp)
  | cons c cs ih =>
      intro acc h
      simp only [List.foldl_cons]
      rcases h with h | ⟨c2, hc2, hm⟩
      · apply ih
        left
        rw [step_enabledTypes]
        split
        · simp only [Option.getD_some, mem_dedupKeepFirst]
          exact List.mem_append_left _ h
        · exact h
      · rcases List.mem_cons.mp hc2 with rfl | hc2
        · apply ih
          left
          rw [step_enabledTypes]
          unfold extractEnabledTypes at hm
          cases hj : jget c2 "enabledTypes" <;> rw [hj] at hm <;> try simp at hm
          rename_i l
          cases l with
          | nil => simp at hm
          | cons t0 ts =>
              simp only [hj, Option.getD_some, mem_dedupKeepFirst]
              exact List.mem_append_right _ hm
        · apply ih
          right
          exact ⟨c2, hc2, hm⟩

theorem extract_ne_nil_objLike (c : JVal) (h : extractEnabledTypes c ≠ []) :
    isJsObjectLike c = true := by
  cases c with
  | jobj fs => rfl
  | jarr xs => exact absurd (rfl : extractEnabledTypes (.jarr xs) = []) h
  | jstr s => exact absurd (rfl : extractEnabledTypes (.jstr s) = []) h
  | jnull => exact absurd (rfl : extractEnabledTypes .jnull = []) h
  | jbool b => exact absurd (rfl : extractEnabledTypes (.jbool b) = []) h
  | jnum n => exact absurd (rfl : extractEnabledTypes (.jnum n) = []) h

/-- C3 (counterexample): the rule layer sets `enabled:false`, yet after
a later layer sets `enabled:true` the merged module reports enabled —
`enabled:false` at *any* layer does not deactivate the module, only a
last-word `false` does. -/
theorem module_enabled_despite_layer_disable :
    jget ruleCfgLayerOff "enabled" = .jbool false ∧
    isSchemaModuleEnabled (mergeSchemaConfig [ruleCfgLayerOff, jobCfgLayerOn, .jnull]) = true := by
  constructor
  · rfl
  · simp [ruleCfgLayerOff, jobCfgLayerOn, mergeSchemaConfig, mergeSchemaConfigStep,
      isSchemaModuleEnabled, getEnabledSchemaTypes, jToString, dedupKeepFirst, dedupSeen,
      jget, lookupField, isJsObjectLike, jTruthy]

/-- C3 (amended): the merged config's resolved enabled-type set is a
superset of the job-level layer's `enabledTypes` (union, never
subtraction); and when the *last* layer to set a boolean `enabled` sets
it to `false` (i.e. the merged `enabled` is `false`), the module
reports disabled regardless of the accumulated type list.  (The claim's
"any layer sets enabled:false" fails: a later `enabled:true` wins.) -/
theorem merged_types_superset_and_last_disable (c1 c2 c3 : JVal) (t : String)
    (ht : t ∈ extractEnabledTypes c2) :
    t ∈ getEnabledSchemaTypes (mergeSchemaConfig [c1, c2, c3]) ∧
    ((mergeSchemaConfig [c1, c2, c3]).enabled = some false →
      isSchemaModuleEnabled (mergeSchemaConfig [c1, c2, c3]) = false) := by
  constructor
  · have hobj : isJsObjectLike c2 = true := by
      apply extract_ne_nil_objLike
      intro hnil
      rw [hnil] at ht
      simp at ht
    have hmem : t ∈ (mergeSchemaConfig [c1, c2, c3]).enabledTypes.getD [] := by
      unfold mergeSchemaConfig
      apply foldl_enabledTypes_mono
      right
      refine ⟨c2, ?_, ht⟩
      simp [List.mem_filter, hobj]
    unfold getEnabledSchemaTypes
    rcases hE : (mergeSchemaConfig [c1, c2, c3]).enabledTypes with _ | l
    · rw [hE] at hmem
      simp at hmem
    · cases l with
      | nil =>
          rw [hE] at hmem
          simp at hmem
      | cons x xs =>
          rw [hE] at hmem
          simp only [Option.getD_some] at hmem
          simpa [mem_dedupKeepFirst] using hmem
  · intro hf
    unfold isSchemaModuleEnabled
    rw [hf]
    simp

/-- Witness for the amended C3 theorem at a concrete triple. -/
theorem merged_types_superset_witness :
    "Product" ∈ extractEnabledTypes jobCfgProduct ∧
    ("Product" ∈ getEnabledSchemaTypes (mergeSchemaConfig [.jnull, jobCfgProduct, .jnull]) ∧
     ((mergeSchemaConfig [.jnull, jobCfgProduct, .jnull]).enabled = some false →
       isSchemaModuleEnabled (mergeSchemaConfig [.jnull, jobCfgProduct, .jnull]) = false)) :=
  ⟨by simp [jobCfgProduct, extractEnabledTypes, jget, lookupField, jToString],
   merged_types_superset_and_last_disable .jnull jobCfgProduct .jnull "Product"
     (by simp [jobCfgProduct, extractEnabledTypes, jget, lookupField, jToString])⟩

/-- Witness for C1 at a concrete environment: the single inserted row
of a plain job run. -/
theorem generated_schema_types_subset_witness :
    (processJob envPlain jobPlain).insertedRow ∈ (processJob envPlain jobPlain).contentTable ∧
    ((processJob envPlain jobPlain).insertedRow ∈ envPlain.db.generatedContent ∨
     (processJob envPlain jobPlain).insertedRow.schemaTypes = none ∨
     ∃ ts, (processJob envPlain jobPlain).insertedRow.schemaTypes = some ts ∧
       ∀ t ∈ ts, t ∈ getEnabledSchemaTypes (mergedConfigOf envPlain jobPlain)) :=
  ⟨by rw [processJob_table_eq]; exact List.mem_append_right _ (List.mem_singleton_self _),
   generated_schema_types_subset envPlain jobPlain _
     (by rw [processJob_table_eq]; exact List.mem_append_right _ (List.mem_singleton_self _))⟩

theorem processJob_finalContent_eq (env : Env) (job : JobData) :
    (processJob env job).finalContent =
      (match (processJob env job).fallbackReason with
       | some fr =>
           attachDetail
             (if !(processJob env job).schemaOut.types.isEmpty then
                attachDetail
                  (match (processJob env job).schemaOut.record with
                   | some r =>
                       if jTruthy (jget r "fallback") then
                         attachDetail (processJob env job).contentBeforeSchema "schemaFallback"
                           (jget r "fallback")
                       else (processJob env job).contentBeforeSchema
                   | none => (processJob env job).contentBeforeSchema)
                  "schemaTypes" (.jarr ((processJob env job).schemaOut.types.map .jstr))
              else
                (match (processJob env job).schemaOut.record with
                 | some r =>
                     if jTruthy (jget r "fallback") then
                       attachDetail (processJob env job).contentBeforeSchema "schemaFallback"
                         (jget r "fallback")
                     else (processJob env job).contentBeforeSchema
                 | none => (processJob env job).contentBeforeSchema))
             "fallbackReason" (.jstr fr)
       | none =>
           if !(processJob env job).schemaOut.types.isEmpty then
             attachDetail
               (match (processJob env job).schemaOut.record with
                | some r =>
                    if jTruthy (jget r "fallback") then
                      attachDetail (processJob env job).contentBeforeSchema "schemaFallback"
                        (jget r "fallback")
                    else (processJob env job).contentBeforeSchema
                | none => (processJob env job).contentBeforeSchema)
               "schemaTypes" (.jarr ((processJob env job).schemaOut.types.map .jstr))
           else
             (match (processJob env job).schemaOut.record with
              | some r =>
                  if jTruthy (jget r "fallback") then
                    attachDetail (processJob env job).contentBeforeSchema "schemaFallback"
                      (jget r "fallback")
                  else (processJob env job).contentBeforeSchema
              | none => (processJob env job).contentBeforeSchema)) := rfl

theorem disabledMerged_not_enabled (m : MergedSchemaConfig)
    (h : m.enabled = some false ∨ getEnabledSchemaTypes m = []) :
    isSchemaModuleEnabled m = false := by
  unfold isSchemaModuleEnabled
  rcases h with h | h
  · rw [h]
    simp
  · rw [h]
    split <;> simp

/-- C10: when the job's merged schema config is disabled (`enabled ===
false`, or the resolved enabled-type set is empty), `processSchemaOutput`
returns a null record with empty types, the persisted row's
`schema_payload` and `schema_types` are both `NULL`, and the schema
steps add no `schemaFallback` (or `schemaTypes`) annotation to the
content details — the final content is the pre-schema content with at
most the `fallbackReason` detail. -/
theorem disabled_schema_yields_null_row (env : Env) (job : JobData)
    (h : (mergedConfigOf env job).enabled = some false ∨
         getEnabledSchemaTypes (mergedConfigOf env job) = []) :
    (processJob env job).schemaOut.record = none ∧
    (processJob env job).schemaOut.types = [] ∧
    (processJob env job).insertedRow.schemaPayload = none ∧
    (processJob env job).insertedRow.schemaTypes = none ∧
    (processJob env job).finalContent =
      (match (processJob env job).fallbackReason with
       | some fr =>
           attachDetail (processJob env job).contentBeforeSchema "fallbackReason" (.jstr fr)
       | none => (processJob env job).contentBeforeSchema) := by
  have hen := disabledMerged_not_enabled _ h
  obtain ⟨raw, ents, heq⟩ := processJob_schemaOut_eq env job
  have hout : (processJob env job).schemaOut = { record := none, types := [] } := by
    rw [heq]
    unfold processSchemaOutput
    simp [hen]
  have hrec : (processJob env job).schemaOut.record = none := by rw [hout]
  have hty : (processJob env job).schemaOut.types = [] := by rw [hout]
  refine ⟨hrec, hty, ?_, ?_, ?_⟩
  · show (processJob env job).schemaOut.record = none
    exact hrec
  · rw [processJob_schemaTypes_eq, hty]
    simp
  · rw [processJob_finalContent_eq, hrec, hty]
    simp

/-- Witness for C10 at the plain fixture (its merged config resolves no
enabled types). -/
theorem disabled_schema_yields_null_row_witness :
    ((mergedConfigOf envPlain jobPlain).enabled = some false ∨
     getEnabledSchemaTypes (mergedConfigOf envPlain jobPlain) = []) ∧
    ((processJob envPlain jobPlain).schemaOut.record = none ∧
     (processJob envPlain jobPlain).schemaOut.types = [] ∧
     (processJob envPlain jobPlain).insertedRow.schemaPayload = none ∧
     (processJob envPlain jobPlain).insertedRow.schemaTypes = none ∧
     (processJob envPlain jobPlain).finalContent =
       (match (processJob envPlain jobPlain).fallbackReason with
        | some fr =>
            attachDetail (processJob envPlain jobPlain).contentBeforeSchema "fallbackReason"
              (.jstr fr)
        | none => (processJob envPlain jobPlain).contentBeforeSchema)) :=
  ⟨Or.inr rfl, disabled_schema_yields_null_row envPlain jobPlain (Or.inr rfl)⟩

theorem lookupField_setField (k k2 : String) (v : JVal) : ∀ (l : List (String × JVal)),
    lookupField (setField l k v) k2 = if k = k2 then some v else lookupField l k2 := by
  intro l
  induction l with
  | nil => simp [setField, lookupField]
  | cons p rest ih =>
      obtain ⟨k0, v0⟩ := p
      by_cases h0 : k0 = k
      · subst h0
        by_cases h2 : k0 = k2 <;> simp [setField, lookupField, h2]
      · have hsf : setField ((k0, v0) :: rest) k v = (k0, v0) :: setField rest k v := by
          simp [setField, h0]
        rw [hsf]
        by_cases h2 : k0 = k2
        · subst h2
          have hk : ¬k = k0 := fun h => h0 h.symm
          simp [lookupField, hk]
        · simp [lookupField, h2, ih]

theorem jget_jobj (fs : List (String × JVal)) (key : String) :
    jget (.jobj fs) key = (lookupField fs key).getD .jnull := rfl

theorem attachDetail_jget_top (fs : List (String × JVal)) (k : String) (v : JVal)
    (key : String) (hk : ¬"details" = key) :
    jget (attachDetail (.jobj fs) k v) key = jget (.jobj fs) key := by
  unfold attachDetail
  rw [jget_jobj, jget_jobj, lookupField_setField, if_neg hk]
  rfl

theorem attachDetail_details (fs : List (String × JVal)) (k : String) (v : JVal) :
    jget (attachDetail (.jobj fs) k v) "details" =
      .jobj (setField (jEntries (jget (.jobj fs) "details")) k v) := by
  unfold attachDetail
  rw [jget_jobj, lookupField_setField, if_pos rfl]
  rfl

theorem attachDetail_details_get_ne (fs : List (String × JVal)) (k : String) (v : JVal)
    (key : String) (hk : ¬k = key)
    (hd : jget (.jobj fs) "details" = .jnull ∨ ∃ ds, jget (.jobj fs) "details" = .jobj ds) :
    jget (jget (attachDetail (.jobj fs) k v) "details") key =
      jget (jget (.jobj fs) "details") key := by
  rw [attachDetail_details]
  rcases hd with hd | ⟨ds, hd⟩ <;> rw [hd]
  · rw [jget_jobj]
    show (lookupField (setField (jEntries .jnull) k v) key).getD .jnull = jget .jnull key
    rw [lookupField_setField, if_neg hk]
    rfl
  · rw [jget_jobj, jget_jobj]
    show (lookupField (setField (jEntries (.jobj ds)) k v) key).getD .jnull = _
    rw [show jEntries (.jobj ds) = ds from rfl, lookupField_setField, if_neg hk]

theorem ensure_invalid (v : JVal) (kw : String) (rule : Option RuleRow) (kb : String)
    (imgs : List ImageRow) (h : jValidShape v = false) :
    ensureStructuredContent (some v) kw rule kb imgs = buildFallbackContent kw rule kb imgs := by
  unfold jValidShape at h
  unfold ensureStructuredContent
  by_cases ht : jTruthy v
  · simp only [ht, Bool.true_and] at h
    simp only [ht, Bool.not_true, if_false, Bool.false_eq_true]
    split
    · rename_i h1 h2 h3
      rw [h1, h2, h3] at h
      simp at h
    · rfl
  · simp [ht]

theorem computeGenerated_cases (env : Env) :
    (computeGenerated env).2 = none ∨ (computeGenerated env).1 = none := by
  unfold computeGenerated
  repeat' split
  all_goals simp

theorem computeGenerated_some_none (env : Env) (v : JVal)
    (h : (computeGenerated env).1 = some v) : (computeGenerated env).2 = none := by
  rcases computeGenerated_cases env with h2 | h2
  · exact h2
  · rw [h2] at h
    exact absurd h (by simp)

theorem intercalateGo_length (s : String) : ∀ (as : List String) (acc : String),
    acc.length ≤ (String.intercalate.go acc s as).length := by
  intro as
  induction as with
  | nil =>
      intro acc
      exact Nat.le_refl _
  | cons a bs ih =>
      intro acc
      have h1 : String.intercalate.go acc s (a :: bs) =
          String.intercalate.go (acc ++ s ++ a) s bs := rfl
      rw [h1]
      refine Nat.le_trans ?_ (ih (acc ++ s ++ a))
      simp [String.length_append]
      omega

theorem intercalate_cons_ne (sep x : String) (l : List String) (hx : x.length ≠ 0) :
    String.intercalate sep (x :: l) ≠ "" := by
  intro h
  have h2 : String.intercalate sep (x :: l) = String.intercalate.go x sep l := rfl
  have h3 := intercalateGo_length sep l x
  rw [← h2, h] at h3
  simp at h3
  omega

theorem sections_head (c : Prop) [Decidable c] (a b : String) (rest mid : List String) :
    ∃ tl, (if c then List.take 2 (a :: b :: rest) ++ mid ++ List.drop 2 (a :: b :: rest)
           else a :: b :: rest) = a :: tl := by
  by_cases hc : c
  · rw [if_pos hc]
    exact ⟨_, rfl⟩
  · rw [if_neg hc]
    exact ⟨_, rfl⟩

theorem buildFallbackContent_body (kw : String) (r : Option RuleRow) (kb : String)
    (imgs : List ImageRow) :
    ∃ s, jget (buildFallbackContent kw r kb imgs) "body" = .jstr s ∧ s ≠ "" := by
  refine ⟨_, rfl, ?_⟩
  obtain ⟨tl, htl⟩ := sections_head
    ((if imgs.isEmpty = true then ""
      else
        "\n\n".intercalate
          (List.map (fun i => "[IMAGE_" ++ toString (i + 1) ++ "]") (List.range imgs.length))) ≠ "")
    ("## Why " ++ kw ++ " Matters")
    ("Discuss the importance of " ++ kw ++
      " for the target audience and how it connects to current market dynamics.")
    ["## Best Practices",
     "Provide actionable tips, referencing any knowledge base snippets and highlighting when images should be inserted.",
     "## Next Steps",
     "Offer a clear call to action and summarize the benefits of adopting strategies related to " ++
       kw ++ "."]
    ["## Visual Inspiration",
     "Incorporate the following visuals:\n\n" ++
       (if imgs.isEmpty = true then ""
        else
          "\n\n".intercalate
            (List.map (fun i => "[IMAGE_" ++ toString (i + 1) ++ "]") (List.range imgs.length)))]
  rw [htl]
  apply intercalate_cons_ne
  intro hlen
  rw [String.length_append, String.length_append] at hlen
  have h7 : ("## Why " : String).length = 7 := rfl
  rw [h7] at hlen
  omega

theorem attach_invariant (c : JVal) (k : String) (v : JVal) (B F : JVal)
    (h1 : ∃ fs, c = .jobj fs)
    (h2 : ∃ ds, jget c "details" = .jobj ds)
    (h3 : jget c "body" = B)
    (h4 : jget (jget c "details") "fallbackReason" = F)
    (hk : ¬k = "fallbackReason") :
    (∃ fs, attachDetail c k v = .jobj fs) ∧
    (∃ ds, jget (attachDetail c k v) "details" = .jobj ds) ∧
    jget (attachDetail c k v) "body" = B ∧
    jget (jget (attachDetail c k v) "details") "fallbackReason" = F := by
  obtain ⟨fs, rfl⟩ := h1
  refine ⟨⟨_, rfl⟩, ⟨_, attachDetail_details fs k v⟩, ?_, ?_⟩
  · rw [attachDetail_jget_top fs k v "body" (by simp), h3]
  · rw [attachDetail_details_get_ne fs k v "fallbackReason" hk (Or.inr h2), h4]

theorem processJob_cbs_eq (env : Env) (job : JobData) :
    ∃ kd, (processJob env job).contentBeforeSchema =
      attachDetail
        (ensureStructuredContent (computeGenerated env).1 job.keyword
          (fetchRule env.db job.ruleId job.userId) (processJob env job).kbResult.content
          (processJob env job).selectedImages)
        "knowledgeBase" kd :=
  ⟨_, rfl⟩

/-- C2 (amended): when the model response parses as JSON but the
parsed value is not a truthy object with string-typed `title`,
`meta_description` and `body`, the persisted `body` is the non-empty
fallback-template text, but no fallback reason is recorded: the job's
`fallbackReason` stays `null` and the in-memory `details` carry no
`fallbackReason` entry (it is set only when the AI is unconfigured, the
request fails, or `JSON.parse` throws); `details` are not persisted at
all. -/
theorem parsed_invalid_shape_uses_fallback (env : Env) (job : JobData) (v : JVal)
    (hgen : (computeGenerated env).1 = some v)
    (hbad : jValidShape v = false) :
    (processJob env job).fallbackReason = none ∧
    (processJob env job).insertedRow.body =
      jget (buildFallbackContent job.keyword (fetchRule env.db job.ruleId job.userId)
        (processJob env job).kbResult.content (processJob env job).selectedImages) "body" ∧
    (∃ s, (processJob env job).insertedRow.body = .jstr s ∧ s ≠ "") ∧
    jget (jget (processJob env job).finalContent "details") "fallbackReason" = .jnull := by
  have hfb : (processJob env job).fallbackReason = none := computeGenerated_some_none env v hgen
  obtain ⟨kd, hcbs⟩ := processJob_cbs_eq env job
  rw [hgen, ensure_invalid v _ _ _ _ hbad] at hcbs
  -- invariant at the fallback content
  have hB0 : (∃ fs, buildFallbackContent job.keyword (fetchRule env.db job.ruleId job.userId)
      (processJob env job).kbResult.content (processJob env job).selectedImages = .jobj fs) ∧
      (∃ ds, jget (buildFallbackContent job.keyword (fetchRule env.db job.ruleId job.userId)
        (processJob env job).kbResult.content (processJob env job).selectedImages) "details" = .jobj ds) ∧
      jget (buildFallbackContent job.keyword (fetchRule env.db job.ruleId job.userId)
        (processJob env job).kbResult.content (processJob env job).selectedImages) "body" =
        jget (buildFallbackContent job.keyword (fetchRule env.db job.ruleId job.userId)
          (processJob env job).kbResult.content (processJob env job).selectedImages) "body" ∧
      jget (jget (buildFallbackContent job.keyword (fetchRule env.db job.ruleId job.userId)
        (processJob env job).kbResult.content (processJob env job).selectedImages) "details")
        "fallbackReason" = .jnull :=
    ⟨⟨_, rfl⟩, ⟨_, rfl⟩, rfl, rfl⟩
  have hB1 := attach_invariant _ "knowledgeBase" kd _ _ hB0.1 hB0.2.1 hB0.2.2.1 hB0.2.2.2
    (by simp)
  rw [← hcbs] at hB1
  -- schema attachments
  have hB2 :
      (∃ fs, (match (processJob env job).schemaOut.record with
        | some r =>
            if jTruthy (jget r "fallback") then
              attachDetail (processJob env job).contentBeforeSchema "schemaFallback"
                (jget r "fallback")
            else (processJob env job).contentBeforeSchema
        | none => (processJob env job).contentBeforeSchema) = .jobj fs) ∧
      (∃ ds, jget (match (processJob env job).schemaOut.record with
        | some r =>
            if jTruthy (jget r "fallback") then
              attachDetail (processJob env job).contentBeforeSchema "schemaFallback"
                (jget r "fallback")
            else (processJob env job).contentBeforeSchema
        | none => (processJob env job).contentBeforeSchema) "details" = .jobj ds) ∧
      jget (match (processJob env job).schemaOut.record with
        | some r =>
            if jTruthy (jget r "fallback") then
              attachDetail (processJob env job).contentBeforeSchema "schemaFallback"
                (jget r "fallback")
            else (processJob env job).contentBeforeSchema
        | none => (processJob env job).contentBeforeSchema) "body" =
        jget (buildFallbackContent job.keyword (fetchRule env.db job.ruleId job.userId)
          (processJob env job).kbResult.content (processJob env job).selectedImages) "body" ∧
      jget (jget (match (processJob env job).schemaOut.record with
        | some r =>
            if jTruthy (jget r "fallback") then
              attachDetail (processJob env job).contentBeforeSchema "schemaFallback"
                (jget r "fallback")
            else (processJob env job).contentBeforeSchema
        | none => (processJob env job).contentBeforeSchema) "details") "fallbackReason" =
        .jnull := by
    rcases (processJob env job).schemaOut.record with _ | r
    · exact hB1
    · by_cases hf : jTruthy (jget r "fallback")
      · simp only [hf, if_true]
        exact attach_invariant _ "schemaFallback" _ _ _ hB1.1 hB1.2.1 hB1.2.2.1 hB1.2.2.2
          (by simp)
      · simp only [hf, Bool.false_eq_true, if_false]
        exact hB1
  have hB3 :
      (∃ fs, (if !(processJob env job).schemaOut.types.isEmpty then
          attachDetail (match (processJob env job).schemaOut.record with
            | some r =>
                if jTruthy (jget r "fallback") then
                  attachDetail (processJob env job).contentBeforeSchema "schemaFallback"
                    (jget r "fallback")
                else (processJob env job).contentBeforeSchema
            | none => (processJob env job).contentBeforeSchema)
            "schemaTypes" (.jarr ((processJob env job).schemaOut.types.map .jstr))
        else (match (processJob env job).schemaOut.record with
            | some r =>
                if jTruthy (jget r "fallback") then
                  attachDetail (processJob env job).contentBeforeSchema "schemaFallback"
                    (jget r "fallback")
                else (processJob env job).contentBeforeSchema
            | none => (processJob env job).contentBeforeSchema)) = .jobj fs) ∧
      (∃ ds, jget (if !(processJob env job).schemaOut.types.isEmpty then
          attachDetail (match (processJob env job).schemaOut.record with
            | some r =>
                if jTruthy (jget r "fallback") then
                  attachDetail (processJob env job).contentBeforeSchema "schemaFallback"
                    (jget r "fallback")
                else (processJob env job).contentBeforeSchema
            | none => (processJob env job).contentBeforeSchema)
            "schemaTypes" (.jarr ((processJob env job).schemaOut.types.map .jstr))
        else (match (processJob env job).schemaOut.record with
            | some r =>
                if jTruthy (jget r "fallback") then
                  attachDetail (processJob env job).contentBeforeSchema "schemaFallback"
                    (jget r "fallback")
                else (processJob env job).contentBeforeSchema
            | none => (processJob env job).contentBeforeSchema)) "details" = .jobj ds) ∧
      jget (if !(processJob env job).schemaOut.types.isEmpty then
          attachDetail (match (processJob env job).schemaOut.record with
            | some r =>
                if jTruthy (jget r "fallback") then
                  attachDetail (processJob env job).contentBeforeSchema "schemaFallback"
                    (jget r "fallback")
                else (processJob env job).contentBeforeSchema
            | none => (processJob env job).contentBeforeSchema)
            "schemaTypes" (.jarr ((processJob env job).schemaOut.types.map .jstr))
        else (match (processJob env job).schemaOut.record with
            | some r =>
                if jTruthy (jget r "fallback") then
                  attachDetail (processJob env job).contentBeforeSchema "schemaFallback"
                    (jget r "fallback")
                else (processJob env job).contentBeforeSchema
            | none => (processJob env job).contentBeforeSchema)) "body" =
        jget (buildFallbackContent job.keyword (fetchRule env.db job.ruleId job.userId)
          (processJob env job).kbResult.content (processJob env job).selectedImages) "body" ∧
      jget (jget (if !(processJob env job).schemaOut.types.isEmpty then
          attachDetail (match (processJob env job).schemaOut.record with
            | some r =>
                if jTruthy (jget r "fallback") then
                  attachDetail (processJob env job).contentBeforeSchema "schemaFallback"
                    (jget r "fallback")
                else (processJob env job).contentBeforeSchema
            | none => (processJob env job).contentBeforeSchema)
            "schemaTypes" (.jarr ((processJob env job).schemaOut.types.map .jstr))
        else (match (processJob env job).schemaOut.record with
            | some r =>
                if jTruthy (jget r "fallback") then
                  attachDetail (processJob env job).contentBeforeSchema "schemaFallback"
                    (jget r "fallback")
                else (processJob env job).contentBeforeSchema
            | none => (processJob env job).contentBeforeSchema)) "details") "fallbackReason" =
        .jnull := by
    by_cases hty : !(processJob env job).schemaOut.types.isEmpty
    · simp only [hty, if_true]
      exact attach_invariant _ "schemaTypes" _ _ _ hB2.1 hB2.2.1 hB2.2.2.1 hB2.2.2.2 (by simp)
    · simp only [hty, if_false]
      exact hB2
  have hfinal : (processJob env job).finalContent =
      (if !(processJob env job).schemaOut.types.isEmpty then
          attachDetail (match (processJob env job).schemaOut.record with
            | some r =>
                if jTruthy (jget r "fallback") then
                  attachDetail (processJob env job).contentBeforeSchema "schemaFallback"
                    (jget r "fallback")
                else (processJob env job).contentBeforeSchema
            | none => (processJob env job).contentBeforeSchema)
            "schemaTypes" (.jarr ((processJob env job).schemaOut.types.map .jstr))
        else (match (processJob env job).schemaOut.record with
            | some r =>
                if jTruthy (jget r "fallback") then
                  attachDetail (processJob env job).contentBeforeSchema "schemaFallback"
                    (jget r "fallback")
                else (processJob env job).contentBeforeSchema
            | none => (processJob env job).contentBeforeSchema)) := by
    rw [processJob_finalContent_eq, hfb]
  have hbody : (processJob env job).insertedRow.body =
      jget (processJob env job).finalContent "body" := rfl
  refine ⟨hfb, ?_, ?_, ?_⟩
  · rw [hbody, hfinal]
    exact hB3.2.2.1
  · rw [hbody, hfinal, hB3.2.2.1]
    exact buildFallbackContent_body _ _ _ _
  · rw [hfinal]
    exact hB3.2.2.2

/-- C2 (counterexample): for a model response that parses as JSON but
lacks `body`, the code never sets `details.fallbackReason` — the job's
fallback reason stays `null` and the final content's details have no
`fallbackReason` key, contradicting the claim. -/
theorem parsed_missing_body_reason_not_set :
    (computeGenerated envShapeBad).1 =
      some (.jobj [("title", .jstr "t"), ("meta_description", .jstr "m")]) ∧
    jget (.jobj [("title", .jstr "t"), ("meta_description", .jstr "m")]) "body" = .jnull ∧
    (processJob envShapeBad jobPlain).fallbackReason = none ∧
    jget (jget (processJob envShapeBad jobPlain).finalContent "details") "fallbackReason" =
      .jnull :=
  ⟨rfl, rfl, rfl, rfl⟩

/-- Witness for the amended C2 theorem at the concrete fixture. -/
theorem parsed_invalid_shape_uses_fallback_witness :
    ((computeGenerated envShapeBad).1 =
        some (.jobj [("title", .jstr "t"), ("meta_description", .jstr "m")]) ∧
     jValidShape (.jobj [("title", .jstr "t"), ("meta_description", .jstr "m")]) = false) ∧
    ((processJob envShapeBad jobPlain).fallbackReason = none ∧
     (processJob envShapeBad jobPlain).insertedRow.body =
       jget (buildFallbackContent jobPlain.keyword
         (fetchRule envShapeBad.db jobPlain.ruleId jobPlain.userId)
         (processJob envShapeBad jobPlain).kbResult.content
         (processJob envShapeBad jobPlain).selectedImages) "body" ∧
     (∃ s, (processJob envShapeBad jobPlain).insertedRow.body = .jstr s ∧ s ≠ "") ∧
     jget (jget (processJob envShapeBad jobPlain).finalContent "details") "fallbackReason" =
       .jnull) :=
  ⟨⟨rfl, rfl⟩, parsed_invalid_shape_uses_fallback envShapeBad jobPlain _ rfl rfl⟩

theorem processJob_result_eq (env : Env) (job : JobData) :
    (processJob env job).result =
      match env.txError with
      | some e => .error e
      | none => .ok (processJob env job).insertedRow := by
  rcases h : env.txError with _ | e
  · unfold processJob withTransaction
    simp only [h]
  · unfold processJob withTransaction
    simp only [h]

theorem attemptStages_last (a b c d : Bool) (e : Bool) :
    (attemptStages a b c d e).getLast? =
      some (if e then ("failed", 100) else ("completed", 100)) := by
  cases a <;> cases b <;> cases c <;> cases d <;> cases e <;>
    simp [attemptStages]

theorem withTransaction_rollback {σ ρ : Type} (st : σ) (f : σ → Except String (σ × ρ))
    (e : String) (h : (withTransaction st f).2 = Except.error e) :
    (withTransaction st f).1 = st := by
  unfold withTransaction at h ⊢
  rcases hf : f st with err | ok
  · rfl
  · obtain ⟨st2, r⟩ := ok
    rw [hf] at h
    simp at h

/-- C6: the generated-content insert runs inside `withTransaction`:
on success the full row is committed, on failure the table is left
exactly as before (no partial write), the progress record ends in
`failed(100)`, and the error is re-raised out of the processor
(surfacing to the queue's retry). -/
theorem persistence_transactional_and_fatal (env : Env) (job : JobData) :
    (env.txError = none →
      (processJob env job).contentTable =
        env.db.generatedContent ++ [(processJob env job).insertedRow] ∧
      (processJob env job).result = .ok (processJob env job).insertedRow ∧
      (processJob env job).progress.getLast? = some ("completed", 100)) ∧
    (∀ e, env.txError = some e →
      (processJob env job).contentTable = env.db.generatedContent ∧
      (processJob env job).result = .error e ∧
      (processJob env job).progress.getLast? = some ("failed", 100)) := by
  have hprog : (processJob env job).progress =
      attemptStages env.aiConfigured (env.aiConfigured && env.callResult.isSome)
        (processJob env job).fallbackReason.isSome
        (processJob env job).schemaOut.record.isSome env.txError.isSome := rfl
  constructor
  · intro h
    refine ⟨?_, ?_, ?_⟩
    · rw [processJob_table_eq, h]
    · rw [processJob_result_eq, h]
    · rw [hprog, attemptStages_last, h]
      simp
  · intro e h
    refine ⟨?_, ?_, ?_⟩
    · rw [processJob_table_eq, h]
    · rw [processJob_result_eq, h]
    · rw [hprog, attemptStages_last, h]
      simp

/-- Witness for C6 at concrete environments (one committing, one
failing). -/
theorem persistence_transactional_and_fatal_witness :
    (envPlain.txError = none ∧
     ((processJob envPlain jobPlain).contentTable =
        envPlain.db.generatedContent ++ [(processJob envPlain jobPlain).insertedRow] ∧
      (processJob envPlain jobPlain).result = .ok (processJob envPlain jobPlain).insertedRow ∧
      (processJob envPlain jobPlain).progress.getLast? = some ("completed", 100))) ∧
    (envTxFail.txError = some "connection reset" ∧
     ((processJob envTxFail jobPlain).contentTable = envTxFail.db.generatedContent ∧
      (processJob envTxFail jobPlain).result = .error "connection reset" ∧
      (processJob envTxFail jobPlain).progress.getLast? = some ("failed", 100))) :=
  ⟨⟨rfl, (persistence_transactional_and_fatal envPlain jobPlain).1 rfl⟩,
   ⟨rfl, (persistence_transactional_and_fatal envTxFail jobPlain).2 "connection reset" rfl⟩⟩

/-- C8: a generation request specifying both a truthy `knowledgeBaseId`
and a truthy `knowledgeSetId` is rejected by the route handler with a
400 client error before any job is enqueued. -/
theorem both_scopes_rejected (req : GenerateReq) (userId : Nat) (enqueueOk : Bool)
    (h1 : jsIdTruthy req.knowledgeBaseId = true)
    (h2 : jsIdTruthy req.knowledgeSetId = true) :
    generateRoute req userId enqueueOk =
      .clientError 400 "Choose either a knowledge set or a single knowledge base document." ∧
    ∀ s j p, generateRoute req userId enqueueOk ≠ .accepted s j p := by
  have heq : generateRoute req userId enqueueOk =
      .clientError 400 "Choose either a knowledge set or a single knowledge base document." := by
    unfold generateRoute
    rw [h1, h2]
    simp
  refine ⟨heq, ?_⟩
  intro s j p h
  rw [heq] at h
  exact RouteOutcome.noConfusion h

/-- Witness for C8 at a concrete request. -/
theorem both_scopes_rejected_witness :
    (jsIdTruthy reqBothScopes.knowledgeBaseId = true ∧
     jsIdTruthy reqBothScopes.knowledgeSetId = true) ∧
    (generateRoute reqBothScopes 1 true =
       .clientError 400 "Choose either a knowledge set or a single knowledge base document." ∧
     ∀ s j p, generateRoute reqBothScopes 1 true ≠ .accepted s j p) :=
  ⟨⟨rfl, rfl⟩, both_scopes_rejected reqBothScopes 1 true rfl rfl⟩

theorem mem_insertSorted (le : α → α → Bool) (x y : α) : ∀ (l : List α),
    (y ∈ insertSorted le x l ↔ y = x ∨ y ∈ l) := by
  intro l
  induction l with
  | nil => simp [insertSorted]
  | cons z zs ih =>
      unfold insertSorted
      by_cases h : le x z
      · simp [h]
      · simp [h, ih]
        tauto

theorem mem_sortByLe (le : α → α → Bool) (y : α) : ∀ (l : List α),
    (y ∈ sortByLe le l ↔ y ∈ l) := by
  intro l
  induction l with
  | nil => simp [sortByLe]
  | cons z zs ih =>
      unfold sortByLe at ih ⊢
      simp only [List.foldr_cons, mem_insertSorted, ih, List.mem_cons]

theorem sortByLe_length (le : α → α → Bool) : ∀ (l : List α),
    (sortByLe le l).length = l.length := by
  intro l
  induction l with
  | nil => rfl
  | cons z zs ih =>
      unfold sortByLe at ih ⊢
      simp only [List.foldr_cons, List.length_cons, ← ih]
      generalize (List.foldr (insertSorted le) [] zs) = m
      induction m with
      | nil => rfl
      | cons w ws ihm =>
          unfold insertSorted
          by_cases h : le z w <;> simp [h, ihm]

theorem fetchDocumentContext_eq (env : Env) (kbId : Option Nat) (userId : Nat) (q : String)
    (d : DocumentRow) (hkb : jsIdTruthy kbId = true)
    (hdoc : env.db.documents.find? (fun d2 => d2.id = kbId.getD 0 && d2.userId = userId) = some d) :
    fetchDocumentContext env kbId userId q =
      (let stats := getDocumentChunkStats env.db d.id userId
       let tier := docTier env d.id userId q stats
       let combined := String.intercalate "\n\n" (tier.2.map (fun r => r.chunk.content))
       let source : JVal :=
         .jobj
           [("type", .jstr "document"), ("id", .jnum d.id),
            ("name", .jstr d.fileName), ("documentCount", .jnum 1)]
       if combined = "" then
         match env.files d.filePath with
         | none =>
             { content := "", truncated := false, originalLength := 0, snippets := [],
               retrievalMode := "error", chunkStats := stats,
               schemaMetadata := d.schemaMetadata, knowledgeSource := source }
         | some raw =>
             let sanitizedRaw := sanitizeKnowledgeText raw
             let truncated := sanitizedRaw.length > MAX_KNOWLEDGE_BASE_CHAR_LENGTH
             let normalized :=
               if truncated then jsSlice sanitizedRaw MAX_KNOWLEDGE_BASE_CHAR_LENGTH
               else sanitizedRaw
             let effStats := { stats with totalLength := sanitizedRaw.length }
             { content := normalized, truncated := truncated,
               originalLength :=
                 if effStats.totalLength ≠ 0 then effStats.totalLength
                 else sanitizedRaw.length,
               snippets := [], retrievalMode := "raw", chunkStats := effStats,
               schemaMetadata := d.schemaMetadata, knowledgeSource := source }
       else
         let truncated := combined.length > MAX_KNOWLEDGE_BASE_CHAR_LENGTH
         let normalized :=
           if truncated then jsSlice combined MAX_KNOWLEDGE_BASE_CHAR_LENGTH else combined
         { content := normalized, truncated := truncated,
           originalLength := if stats.totalLength ≠ 0 then stats.totalLength else combined.length,
           snippets := tier.2, retrievalMode := tier.1, chunkStats := stats,
           schemaMetadata := d.schemaMetadata, knowledgeSource := source }) := by
  unfold fetchDocumentContext
  rw [hkb]
  simp only [Bool.not_true, if_false, hdoc, Bool.false_eq_true]

/-- C4: for an existing document with zero stored chunks the retrieval
mode is `raw` or `error` (never `vector`/`chunk`); with at least one
chunk but no chunk embeddings it is `chunk` (never `vector`).  The
second part assumes the stored chunk contents are non-empty, which the
ingestion path guarantees (`splitIntoChunks_nonempty`). -/
theorem doc_retrieval_tier_modes (env : Env) (kbId : Option Nat) (userId : Nat) (q : String)
    (d : DocumentRow) (hkb : jsIdTruthy kbId = true)
    (hdoc : env.db.documents.find? (fun d2 => d2.id = kbId.getD 0 && d2.userId = userId) = some d) :
    (chunksFor env.db d.id userId = [] →
      (fetchDocumentContext env kbId userId q).retrievalMode = "raw" ∨
      (fetchDocumentContext env kbId userId q).retrievalMode = "error") ∧
    (chunksFor env.db d.id userId ≠ [] →
      (∀ c ∈ chunksFor env.db d.id userId, c.embedding = none) →
      (∀ c ∈ chunksFor env.db d.id userId, c.content ≠ "") →
      (fetchDocumentContext env kbId userId q).retrievalMode = "chunk") := by
  rw [fetchDocumentContext_eq env kbId userId q d hkb hdoc]
  constructor
  · intro hnil
    have hstats : getDocumentChunkStats env.db d.id userId =
        { chunkCount := 0, embeddingCount := 0, totalLength := 0 } := by
      unfold getDocumentChunkStats
      rw [hnil]
      rfl
    have htier : docTier env d.id userId q (getDocumentChunkStats env.db d.id userId) =
        ("none", []) := by
      rw [hstats]
      unfold docTier
      simp
    simp only [htier]
    simp only [List.map_nil, String.intercalate]
    rcases env.files d.filePath with _ | raw
    · right
      rfl
    · left
      rfl
  · intro hne hemb hcont
    have hemb0 : ((chunksFor env.db d.id userId).filter (fun c => c.embedding.isSome)).length = 0 := by
      rw [List.length_eq_zero, List.filter_eq_nil_iff]
      intro c hc
      rw [hemb c hc]
      simp
    have hcnt : (chunksFor env.db d.id userId).length > 0 := by
      cases h : chunksFor env.db d.id userId
      · exact absurd h hne
      · simp [h]
    obtain ⟨r0, rest, hrows⟩ : ∃ r0 rest, fetchFallbackChunks env d.id userId = r0 :: rest := by
      unfold fetchFallbackChunks
      cases hs : (sortByLe (fun a b => a.chunkIndex ≤ b.chunkIndex)
          (chunksFor env.db d.id userId)).take MAX_KNOWLEDGE_BASE_SNIPPETS with
      | nil =>
          exfalso
          have := congrArg List.length hs
          rw [List.length_take, sortByLe_length] at this
          have h5 : MAX_KNOWLEDGE_BASE_SNIPPETS = 5 := rfl
          rw [h5] at this
          simp only [List.length_nil] at this
          omega
      | cons a as => exact ⟨_, _, rfl⟩
    have htier : docTier env d.id userId q (getDocumentChunkStats env.db d.id userId) =
        ("chunk", r0 :: rest) := by
      unfold docTier
      have he : (getDocumentChunkStats env.db d.id userId).embeddingCount = 0 := hemb0
      have hc : (getDocumentChunkStats env.db d.id userId).chunkCount > 0 := hcnt
      rw [he]
      simp only [Nat.lt_irrefl, Bool.and_false, and_false, if_false]
      simp only [hc, if_true, hrows]
      simp
    simp only [htier]
    have hr0mem : r0.chunk ∈ chunksFor env.db d.id userId := by
      have : r0 ∈ fetchFallbackChunks env d.id userId := by
        rw [hrows]
        exact List.mem_cons_self _ _
      unfold fetchFallbackChunks at this
      obtain ⟨c, hcm, hceq⟩ := List.mem_map.mp this
      have hcs := List.mem_of_mem_take hcm
      rw [mem_sortByLe] at hcs
      rw [← hceq]
      exact hcs
    have hcomb : String.intercalate "\n\n" ((r0 :: rest).map (fun r => r.chunk.content)) ≠ "" := by
      simp only [List.map_cons]
      apply intercalate_cons_ne
      intro hlen
      have : r0.chunk.content = "" := by
        cases hc : r0.chunk.content
        rename_i data
        cases data
        · rfl
        · rw [hc] at hlen
          simp [String.length] at hlen
      exact hcont r0.chunk hr0mem this
    simp only [hcomb, if_false]

/-- Witness for C4 at a concrete database. -/
theorem doc_retrieval_tier_modes_witness :
    (jsIdTruthy (some 1) = true ∧
     envDocChunk.db.documents.find?
       (fun d2 => d2.id = (some 1 : Option Nat).getD 0 && d2.userId = 7) = some docW) ∧
    ((chunksFor envDocChunk.db docW.id 7 = [] →
       (fetchDocumentContext envDocChunk (some 1) 7 "q").retrievalMode = "raw" ∨
       (fetchDocumentContext envDocChunk (some 1) 7 "q").retrievalMode = "error") ∧
     (chunksFor envDocChunk.db docW.id 7 ≠ [] →
       (∀ c ∈ chunksFor envDocChunk.db docW.id 7, c.embedding = none) →
       (∀ c ∈ chunksFor envDocChunk.db docW.id 7, c.content ≠ "") →
       (fetchDocumentContext envDocChunk (some 1) 7 "q").retrievalMode = "chunk")) :=
  ⟨⟨rfl, rfl⟩, doc_retrieval_tier_modes envDocChunk (some 1) 7 "q" docW rfl rfl⟩

theorem stringMk_ne_empty (l : List Char) (h : l ≠ []) : String.mk l ≠ "" := by
  intro he
  apply h
  have h2 : (String.mk l).data = ("" : String).data := by rw [he]
  simpa using h2

theorem accAppend (acc : List String) (ch : List Char) (h : ¬ch = [])
    (hacc : ∀ c ∈ acc, c ≠ "") : ∀ c ∈ acc ++ [String.mk ch], c ≠ "" := by
  intro c hc
  rcases List.mem_append.mp hc with h1 | h1
  · exact hacc c h1
  · rw [List.mem_singleton.mp h1]
    exact stringMk_ne_empty ch h

theorem splitLoop_nonempty (text : List Char) : ∀ (fuel start cnt : Nat) (acc : List String),
    (∀ c ∈ acc, c ≠ "") → ∀ c ∈ splitLoop text fuel start cnt acc, c ≠ "" := by
  intro fuel
  induction fuel with
  | zero =>
      intro start cnt acc hacc
      exact hacc
  | succ f ih =>
      intro start cnt acc hacc
      unfold splitLoop
      simp only []
      split
      · repeat' split
        all_goals
          first
            | (refine accAppend acc _ ?_ hacc; assumption)
            | (refine ih _ _ _ (accAppend acc _ ?_ hacc); assumption)
            | exact ih _ _ _ hacc
            | exact hacc
      · exact hacc

/-- Ingestion invariant backing C4's hypothesis: `splitIntoChunks`
(the only producer of `document_chunks` rows) never emits an empty
chunk. -/
theorem splitIntoChunks_nonempty (raw : String) : ∀ c ∈ splitIntoChunks raw, c ≠ "" := by
  unfold splitIntoChunks
  simp only []
  by_cases h : sanitizeText raw = ""
  · rw [if_pos h]
    simp
  · rw [if_neg h]
    split
    · intro c hc
      rw [List.mem_singleton.mp hc]
      apply stringMk_ne_empty
      intro htake
      apply h
      have hd : (sanitizeText raw).data = [] := by
        cases hdata : (sanitizeText raw).data with
        | nil => rfl
        | cons a as =>
            rw [hdata] at htake
            simp at htake
      calc sanitizeText raw = String.mk ((sanitizeText raw).data) := rfl
        _ = String.mk [] := by rw [hd]
        _ = "" := rfl
    · exact splitLoop_nonempty _ _ _ _ [] (by simp)

theorem stripCrLf_replicate_a : ∀ (n : Nat),
    stripCrLf (List.replicate n 'a') = List.replicate n 'a' := by
  intro n
  induction n with
  | zero => rfl
  | succ m ih =>
      have hstep : ∀ rest, stripCrLf ('a' :: rest) = 'a' :: stripCrLf rest := fun rest => rfl
      rw [List.replicate_succ, hstep, ih]

theorem collapseWsNl_replicate_a : ∀ (n : Nat),
    collapseWsNl (List.replicate n 'a') = List.replicate n 'a' := by
  intro n
  induction n with
  | zero =>
      rw [List.replicate_zero]
      unfold collapseWsNl
      rfl
  | succ m ih =>
      rw [List.replicate_succ]
      unfold collapseWsNl
      rw [if_neg (by decide : ¬isJsWs 'a' = true)]
      rw [ih]

theorem dropWhile_replicate_a (n : Nat) :
    List.dropWhile isJsWs (List.replicate n 'a') = List.replicate n 'a' := by
  cases n with
  | zero => rfl
  | succ m =>
      rw [List.replicate_succ, List.dropWhile_cons]
      simp [(by decide : isJsWs 'a' = false)]

theorem jsTrimChars_replicate_a (n : Nat) :
    jsTrimChars (List.replicate n 'a') = List.replicate n 'a' := by
  unfold jsTrimChars
  rw [dropWhile_replicate_a, List.reverse_replicate, dropWhile_replicate_a,
    List.reverse_replicate]

theorem sanitize_replicate_a (n : Nat) :
    sanitizeKnowledgeText (String.mk (List.replicate n 'a')) =
      String.mk (List.replicate n 'a') := by
  unfold sanitizeKnowledgeText
  have hdata : (String.mk (List.replicate n 'a')).data = List.replicate n 'a' := rfl
  rw [hdata, List.map_replicate]
  have hmap : (if ('a' : Char) = '\x00' then ' ' else if isCtrlChar 'a' then ' ' else 'a') = 'a' := by
    decide
  rw [hmap, stripCrLf_replicate_a, collapseWsNl_replicate_a, jsTrimChars_replicate_a]

theorem jsSlice_length (s : String) (n : Nat) :
    (jsSlice s n).length = min n s.length := by
  unfold jsSlice
  show (s.data.take n).length = min n s.length
  rw [List.length_take]
  rfl

theorem intercalate_single (s a : String) : String.intercalate s [a] = a := rfl

theorem intercalate_pair (s a b : String) : String.intercalate s [a, b] = a ++ s ++ b := rfl

theorem replicate_str_length (n : Nat) : (String.mk (List.replicate n 'a')).length = n := by
  show (List.replicate n 'a').length = n
  exact List.length_replicate _ _

theorem buildRawSections_break (env : Env) (d1 d2 : DocumentRow) (s1 : String)
    (hf1 : env.files d1.filePath = some s1)
    (ht1 : sanitizeKnowledgeText s1 ≠ "")
    (hbr : ("## " ++ d1.fileName ++ "\n" ++ sanitizeKnowledgeText s1).length ≥
      MAX_KNOWLEDGE_BASE_CHAR_LENGTH) :
    buildRawSections env [d1, d2] [] =
      ["## " ++ d1.fileName ++ "\n" ++ sanitizeKnowledgeText s1] := by
  unfold buildRawSections
  rw [hf1]
  simp only [ht1, if_true, List.nil_append, ne_eq, not_false_eq_true]
  rw [intercalate_single]
  rw [if_pos hbr]

theorem buildRawSections_two (env : Env) (d1 d2 : DocumentRow) (s1 s2 : String)
    (hf1 : env.files d1.filePath = some s1)
    (hf2 : env.files d2.filePath = some s2)
    (ht1 : sanitizeKnowledgeText s1 ≠ "")
    (ht2 : sanitizeKnowledgeText s2 ≠ "")
    (hbr : ¬("## " ++ d1.fileName ++ "\n" ++ sanitizeKnowledgeText s1).length ≥
      MAX_KNOWLEDGE_BASE_CHAR_LENGTH) :
    buildRawSections env [d1, d2] [] =
      ["## " ++ d1.fileName ++ "\n" ++ sanitizeKnowledgeText s1,
       "## " ++ d2.fileName ++ "\n" ++ sanitizeKnowledgeText s2] := by
  unfold buildRawSections
  rw [hf1]
  simp only [ht1, if_true, List.nil_append, ne_eq, not_false_eq_true]
  rw [intercalate_single, if_neg hbr]
  unfold buildRawSections
  rw [hf2]
  simp only [ht2, if_true, ne_eq, not_false_eq_true]
  split
  · rfl
  · unfold buildRawSections
    rfl

theorem fetchKS_raw (env : Env) (sid uid : Nat) (q : String) (setMeta : KnowledgeSetRow)
    (d1 d2 : DocumentRow)
    (hset : env.db.knowledgeSets.find? (fun s => s.id = sid && s.userId = uid) = some setMeta)
    (hdocs : sortByLe (fun a b => b.createdAt ≤ a.createdAt)
      (env.db.documents.filter (fun d => d.userId = uid && d.knowledgeSetId = some sid)) =
      [d1, d2])
    (hchunks : chunksForDocs env.db [d1.id, d2.id] uid = [])
    (hcomb : String.intercalate "\n\n" (buildRawSections env [d1, d2] []) ≠ "") :
    (fetchKnowledgeSetContext env sid uid q).retrievalMode = "raw_set" ∧
    (fetchKnowledgeSetContext env sid uid q).truncated =
      ((String.intercalate "\n\n" (buildRawSections env [d1, d2] [])).length >
        MAX_KNOWLEDGE_BASE_CHAR_LENGTH) ∧
    (fetchKnowledgeSetContext env sid uid q).content =
      (if (String.intercalate "\n\n" (buildRawSections env [d1, d2] [])).length >
          MAX_KNOWLEDGE_BASE_CHAR_LENGTH
       then jsSlice (String.intercalate "\n\n" (buildRawSections env [d1, d2] []))
         MAX_KNOWLEDGE_BASE_CHAR_LENGTH
       else String.intercalate "\n\n" (buildRawSections env [d1, d2] [])) := by
  unfold fetchKnowledgeSetContext
  rw [hset]
  simp only []
  rw [hdocs]
  have hstats : getAggregatedChunkStats env.db ([d1, d2].map (fun d => d.id)) uid =
      { chunkCount := 0, embeddingCount := 0, totalLength := 0 } := by
    unfold getAggregatedChunkStats
    rw [if_neg (by simp)]
    show statsOf (chunksForDocs env.db [d1.id, d2.id] uid) = _
    rw [hchunks]
    rfl
  rw [hstats]
  have htier : setTier env ([d1, d2].map (fun d => d.id)) uid q
      { chunkCount := 0, embeddingCount := 0, totalLength := 0 } = ("none", []) := by
    unfold setTier
    simp
  rw [htier]
  simp only [List.isEmpty_cons, List.map_nil, Bool.false_eq_true, if_false]
  rw [show String.intercalate "\n\n" ([] : List String) = "" from rfl]
  simp only [if_pos rfl, hcomb, if_false, ne_eq, not_false_eq_true, if_true]
  refine ⟨by simp, by simp, by simp⟩

theorem fetchDoc_truncated_len (env : Env) (kb : Option Nat) (uid : Nat) (q : String) :
    (fetchDocumentContext env kb uid q).truncated = true →
    (fetchDocumentContext env kb uid q).content.length = MAX_KNOWLEDGE_BASE_CHAR_LENGTH := by
  unfold fetchDocumentContext
  simp only []
  repeat' split
  all_goals intro h
  all_goals simp_all [emptyKnowledgeResult, jsSlice_length]
  all_goals omega

theorem fetchKS_truncated_len (env : Env) (sid uid : Nat) (q : String) :
    (fetchKnowledgeSetContext env sid uid q).truncated = true →
    (fetchKnowledgeSetContext env sid uid q).content.length = MAX_KNOWLEDGE_BASE_CHAR_LENGTH := by
  unfold fetchKnowledgeSetContext
  simp only []
  repeat' split
  all_goals intro h
  all_goals simp_all [emptyKnowledgeResult, jsSlice_length]
  all_goals omega

theorem sanA_ne : sanitizeKnowledgeText strA ≠ "" := by
  rw [show strA = String.mk (List.replicate 7995 'a') from rfl, sanitize_replicate_a]
  intro h
  have h2 := congrArg String.length h
  rw [replicate_str_length] at h2
  exact absurd h2 (by decide)

theorem sec1_len : ("## " ++ docA.fileName ++ "\n" ++ sanitizeKnowledgeText strA).length
    = 8000 := by
  rw [show docA.fileName = "X" from rfl,
    show strA = String.mk (List.replicate 7995 'a') from rfl, sanitize_replicate_a,
    String.length_append, replicate_str_length]
  have h5 : ("## " ++ "X" ++ "\n").length = 5 := rfl
  omega

theorem envKS_sections : buildRawSections envKS [docA, docB] [] =
    ["## " ++ docA.fileName ++ "\n" ++ sanitizeKnowledgeText strA] := by
  refine buildRawSections_break envKS docA docB strA rfl sanA_ne ?_
  rw [sec1_len]
  decide

theorem envKS_raw : (fetchKnowledgeSetContext envKS 5 7 "q").retrievalMode = "raw_set" ∧
    (fetchKnowledgeSetContext envKS 5 7 "q").truncated = false ∧
    (fetchKnowledgeSetContext envKS 5 7 "q").content.length = 8000 := by
  have hdocs : sortByLe (fun a b => b.createdAt ≤ a.createdAt)
      (envKS.db.documents.filter (fun d => d.userId = 7 && d.knowledgeSetId = some 5)) =
      [docA, docB] := rfl
  have hchunks : chunksForDocs envKS.db [docA.id, docB.id] 7 = [] := rfl
  have hcombeq : String.intercalate "\n\n" (buildRawSections envKS [docA, docB] []) =
      "## " ++ docA.fileName ++ "\n" ++ sanitizeKnowledgeText strA := by
    rw [envKS_sections, intercalate_single]
  have hcomb : String.intercalate "\n\n" (buildRawSections envKS [docA, docB] []) ≠ "" := by
    rw [hcombeq]
    intro h
    have h2 := congrArg String.length h
    rw [sec1_len] at h2
    exact absurd h2 (by decide)
  obtain ⟨hm, ht, hc⟩ := fetchKS_raw envKS 5 7 "q" ks5 docA docB rfl hdocs hchunks hcomb
  have hneg : ¬ (String.intercalate "\n\n" (buildRawSections envKS [docA, docB] [])).length >
      MAX_KNOWLEDGE_BASE_CHAR_LENGTH := by
    rw [hcombeq, sec1_len]
    decide
  refine ⟨hm, ?_, ?_⟩
  · cases hb : (fetchKnowledgeSetContext envKS 5 7 "q").truncated
    · rfl
    · exact absurd (Eq.mp ht hb) hneg
  · rw [hc, if_neg hneg, hcombeq, sec1_len]

theorem sanC_ne : sanitizeKnowledgeText strC ≠ "" := by
  rw [show strC = String.mk (List.replicate 4500 'a') from rfl, sanitize_replicate_a]
  intro h
  have h2 := congrArg String.length h
  rw [replicate_str_length] at h2
  exact absurd h2 (by decide)

theorem secC_len (nm : String) (h1 : nm.length = 1) :
    ("## " ++ nm ++ "\n" ++ sanitizeKnowledgeText strC).length = 4505 := by
  rw [show strC = String.mk (List.replicate 4500 'a') from rfl, sanitize_replicate_a,
    String.length_append, replicate_str_length, String.length_append, String.length_append, h1]
  have h3 : ("## " : String).length = 3 := rfl
  have h4 : ("\n" : String).length = 1 := rfl
  omega

theorem envKS2_sections : buildRawSections envKS2 [docC, docD] [] =
    ["## " ++ docC.fileName ++ "\n" ++ sanitizeKnowledgeText strC,
     "## " ++ docD.fileName ++ "\n" ++ sanitizeKnowledgeText strC] := by
  refine buildRawSections_two envKS2 docC docD strC strC rfl rfl sanC_ne sanC_ne ?_
  rw [secC_len docC.fileName rfl]
  decide

theorem envKS2_comb_len :
    (String.intercalate "\n\n" (buildRawSections envKS2 [docC, docD] [])).length = 9012 := by
  rw [envKS2_sections, intercalate_pair, String.length_append, String.length_append,
    secC_len docC.fileName rfl, secC_len docD.fileName rfl]
  rfl

theorem envKS2_raw : (fetchKnowledgeSetContext envKS2 6 7 "q").retrievalMode = "raw_set" ∧
    (fetchKnowledgeSetContext envKS2 6 7 "q").truncated = true ∧
    (fetchKnowledgeSetContext envKS2 6 7 "q").content.length = 8000 := by
  have hdocs : sortByLe (fun a b => b.createdAt ≤ a.createdAt)
      (envKS2.db.documents.filter (fun d => d.userId = 7 && d.knowledgeSetId = some 6)) =
      [docC, docD] := rfl
  have hchunks : chunksForDocs envKS2.db [docC.id, docD.id] 7 = [] := rfl
  have hcomb : String.intercalate "\n\n" (buildRawSections envKS2 [docC, docD] []) ≠ "" := by
    intro h
    have h2 := congrArg String.length h
    rw [envKS2_comb_len] at h2
    exact absurd h2 (by decide)
  obtain ⟨hm, ht, hc⟩ := fetchKS_raw envKS2 6 7 "q" ks6 docC docD rfl hdocs hchunks hcomb
  have hgt : (String.intercalate "\n\n" (buildRawSections envKS2 [docC, docD] [])).length >
      MAX_KNOWLEDGE_BASE_CHAR_LENGTH := by
    rw [envKS2_comb_len]
    decide
  refine ⟨hm, Eq.mpr ht hgt, ?_⟩
  rw [hc, if_pos hgt, jsSlice_length, envKS2_comb_len]
  decide

/-- C5: counterexample — a knowledge set of two documents whose sanitized
raw texts total exactly 9000 characters, with no stored chunks, yields
`retrievalMode = "raw_set"` and content of exactly 8000 characters, but
`truncated = false`: the raw-section loop stops appending once the joined
sections reach the 8000-character ceiling, and a join of exactly 8000
characters fails the strict `combined.length > 8000` test, so the
truncation is NOT recorded in the result, contradicting the claimed
`truncated === true`. -/
theorem knowledge_truncation_exact_ceiling_not_flagged :
    (sanitizeKnowledgeText strA).length + (sanitizeKnowledgeText strB).length = 9000 ∧
    chunksForDocs envKS.db [docA.id, docB.id] 7 = [] ∧
    (fetchKnowledgeSetContext envKS 5 7 "q").retrievalMode = "raw_set" ∧
    (fetchKnowledgeSetContext envKS 5 7 "q").content.length = 8000 ∧
    (fetchKnowledgeSetContext envKS 5 7 "q").truncated = false := by
  obtain ⟨hm, ht, hc⟩ := envKS_raw
  refine ⟨?_, rfl, hm, hc, ht⟩
  rw [show strA = String.mk (List.replicate 7995 'a') from rfl,
    show strB = String.mk (List.replicate 1005 'a') from rfl,
    sanitize_replicate_a, sanitize_replicate_a, replicate_str_length, replicate_str_length]

/-- C5 (amended): whenever a retrieval result reports `truncated = true`
— for a single document or for a knowledge set — its content has been
hard-truncated to exactly the 8000-character ceiling; and a knowledge set
of two documents whose raw sections together exceed the ceiling (while
the first section alone stays below it, so the section loop does not
stop early) yields `retrievalMode = "raw_set"`, `truncated = true` and
content of exactly 8000 characters.  The original scenario (9000
combined sanitized characters) does not force `truncated = true`,
because the raw-section loop breaks once the join reaches 8000
characters and the exact-8000 join is not flagged. -/
theorem knowledge_truncation_amended :
    (∀ (env : Env) (sid uid : Nat) (q : String),
      (fetchKnowledgeSetContext env sid uid q).truncated = true →
      (fetchKnowledgeSetContext env sid uid q).content.length =
        MAX_KNOWLEDGE_BASE_CHAR_LENGTH) ∧
    (∀ (env : Env) (kb : Option Nat) (uid : Nat) (q : String),
      (fetchDocumentContext env kb uid q).truncated = true →
      (fetchDocumentContext env kb uid q).content.length =
        MAX_KNOWLEDGE_BASE_CHAR_LENGTH) ∧
    (fetchKnowledgeSetContext envKS2 6 7 "q").retrievalMode = "raw_set" ∧
    (fetchKnowledgeSetContext envKS2 6 7 "q").truncated = true ∧
    (fetchKnowledgeSetContext envKS2 6 7 "q").content.length = 8000 := by
  obtain ⟨hm, ht, hc⟩ := envKS2_raw
  exact ⟨fetchKS_truncated_len, fetchDoc_truncated_len, hm, ht, hc⟩

/-- C9: counterexample — with no manual ids and no collection id,
`resolveImages` samples only images whose `collection_id IS NULL`, not
the user's full library: an owned, tag-matching image that belongs to
some collection is excluded from the result, although the spec-worded
full-library query returns it. -/
theorem resolveImages_library_not_full :
    (resolveImages envImg none none 0 ["t"] 7).1 = [] ∧
    fetchImagesFromLibrarySpec envImg 7 0 ["t"] = [imgColl] := ⟨rfl, rfl⟩

/-- C9 (amended): `resolveImages` applies strict precedence — a
non-empty explicit id list returns exactly the owned images matching the
ids, ignoring both the collection id and the requested count; otherwise
a truthy collection id yields a shuffled sample of OWNED images of that
collection filtered by tag overlap; otherwise the sample is drawn only
from the owned images with NO collection (`collection_id IS NULL`), not
the full library, filtered by tag overlap; and a requested count of zero
means no cap: the uncapped branch returns a permutation of every
matching row. -/
theorem resolveImages_amended (env : Env) (i : Nat) (is : List Nat) (cid : Option Nat)
    (cnt : Nat) (tf : List String) (uid : Nat)
    (hsh : ∀ l, (env.shuffle l).Perm l) :
    (resolveImages env (some (i :: is)) cid cnt tf uid).1 =
      env.db.images.filter (fun im => im.id ∈ i :: is && im.userId = uid) ∧
    (∀ x ∈ (resolveImages env none cid cnt tf uid).1,
      jsIdTruthy cid = true →
        x.userId = uid ∧ x.collectionId = cid ∧
        (tf ≠ [] → tagsOverlap x.tags tf = true)) ∧
    (∀ x ∈ (resolveImages env none cid cnt tf uid).1,
      jsIdTruthy cid = false →
        x.userId = uid ∧ x.collectionId = none ∧
        (tf ≠ [] → tagsOverlap x.tags tf = true)) ∧
    (cnt = 0 → jsIdTruthy cid = false →
      ((resolveImages env none cid cnt tf uid).1).Perm
        (env.db.images.filter (fun im =>
          im.userId = uid && im.collectionId = none &&
          (tf.isEmpty || tagsOverlap im.tags tf)))) := by
  refine ⟨rfl, ?_, ?_, ?_⟩
  · intro x hx hcid
    unfold resolveImages at hx
    simp only [hcid, if_true] at hx
    unfold fetchImagesFromCollection at hx
    simp only [hcid, Bool.not_true, Bool.false_eq_true, if_false] at hx
    have hx2 : x ∈ env.shuffle (env.db.images.filter (fun i =>
        i.userId = uid && i.collectionId = cid &&
        (tf.isEmpty || tagsOverlap i.tags tf))) := by
      split at hx
      · exact List.mem_of_mem_take hx
      · exact hx
    have hx3 := (hsh _).mem_iff.mp hx2
    have hx4 := List.mem_filter.mp hx3
    have hx5 := hx4.2
    simp only [Bool.and_eq_true, Bool.or_eq_true, decide_eq_true_eq,
      List.isEmpty_iff] at hx5
    refine ⟨hx5.1.1, hx5.1.2, ?_⟩
    intro htf
    rcases hx5.2 with h | h
    · exact absurd h htf
    · exact h
  · intro x hx hcid
    unfold resolveImages at hx
    simp only [hcid, Bool.false_eq_true, if_false] at hx
    unfold fetchImagesFromLibrary at hx
    simp only [] at hx
    have hx2 : x ∈ env.shuffle (env.db.images.filter (fun i =>
        i.userId = uid && i.collectionId = none &&
        (tf.isEmpty || tagsOverlap i.tags tf))) := by
      split at hx
      · exact List.mem_of_mem_take hx
      · exact hx
    have hx3 := (hsh _).mem_iff.mp hx2
    have hx4 := List.mem_filter.mp hx3
    have hx5 := hx4.2
    simp only [Bool.and_eq_true, Bool.or_eq_true, decide_eq_true_eq,
      List.isEmpty_iff] at hx5
    refine ⟨hx5.1.1, hx5.1.2, ?_⟩
    intro htf
    rcases hx5.2 with h | h
    · exact absurd h htf
    · exact h
  · intro hcnt hcid
    unfold resolveImages
    simp only [hcid, Bool.false_eq_true, if_false]
    unfold fetchImagesFromLibrary
    simp only [hcnt]
    rw [if_neg (by decide)]
    exact hsh _

/-- C9 witness: the amended precedence theorem applied to a concrete
environment whose shuffle is the identity permutation. -/
theorem resolveImages_amended_witness :
    (∀ l, (envImg.shuffle l).Perm l) ∧
    (resolveImages envImg (some [1]) (some 3) 2 ["t"] 7).1 =
      envImg.db.images.filter (fun im => im.id ∈ [1] && im.userId = 7) :=
  ⟨fun l => List.Perm.refl l,
   (resolveImages_amended envImg 1 [] (some 3) 2 ["t"] 7 (fun l => List.Perm.refl l)).1⟩
